import Mathlib

/-!
# SpellChecker plugin core: scheduler, mistake store and cursor lookup

A shallow embedding of `src/spellcheckercore.cpp`.  The private data of
`SpellCheckerCore` becomes the record `SpellCheckerCorePrivate`; every slot of
the class becomes a function from a state to the next state.  Effects that
leave the object (jobs handed to `Utils::asyncRun`, queued meta calls, emitted
signals, extra selections put on the editor) are appended to trace fields of
the state, in the order the code performs them.
-/

namespace SpellChecker

/-! ## Data model -/

/-- Value of a 32 bit signed integer after the conversion to `uint32_t` that
C++ applies when it meets an unsigned operand. -/
def toU32 (x : Int) : Nat := (x % 4294967296).toNat

/-- Word found by a document parser.  The declaration lives in `Word.h`; the
field types are read off the casts of the source: `lineNumber` and
`columnNumber` are `uint32_t` (cast with `int32_t( .. )` where an `int` is
needed), `length` is a signed `int` (cast with `uint32_t( .. )` where an
unsigned value is needed). -/
structure Word where
  text : String
  lineNumber : Nat
  columnNumber : Nat
  length : Int
  suggestions : List String
deriving DecidableEq, Repr

/-- The `WordList` container, as the sequence of Words that its iterators
traverse from `constBegin()` to `constEnd()`; `append` adds at the end. -/
abbrev WordList := List Word

/-- One row of the project mistakes model: the mistakes of one file and the
flag passed along by `insertSpellingMistakes`. -/
structure FileMistakes where
  file : String
  words : WordList
  inStartupProject : Bool
deriving DecidableEq, Repr

/-- The `ProjectMistakesModel` (the mistake store), one row per file. -/
abbrev ProjectMistakesModel := List FileMistakes

namespace ProjectMistakesModel

/-- Modelled from the spec: `ProjectMistakesModel::mistakesForFile` is not part
of the sources.  "Returns the current (possibly empty) immutable snapshot for
file." -/
def mistakesForFile (m : ProjectMistakesModel) (fileName : String) : WordList :=
  match m.find? (fun e => e.file == fileName) with
  | some e => e.words
  | none => []

/-- Modelled from the spec: `ProjectMistakesModel::insertSpellingMistakes` is
not part of the sources.  "Wholesale replace of the file's mistake collection";
"store records whether the file belongs to the active project". -/
def insertSpellingMistakes (m : ProjectMistakesModel) (fileName : String)
    (words : WordList) (inStartupProject : Bool) : ProjectMistakesModel :=
  ⟨fileName, words, inStartupProject⟩ :: m.filter (fun e => e.file != fileName)

/-- Modelled from the spec: `ProjectMistakesModel::clearAllSpellingMistakes` is
not part of the sources.  "Empties the store." -/
def clearAllSpellingMistakes (_m : ProjectMistakesModel) : ProjectMistakesModel := []

/-- Modelled from the spec: `ProjectMistakesModel::projectFilesChanged` is not
part of the sources.  The delta is emitted "so the Mistake Store can drop
entries for removed files"; added files get their entry from a later
publish. -/
def projectFilesChanged (m : ProjectMistakesModel) (_added removed : Finset String) :
    ProjectMistakesModel :=
  m.filter (fun e => decide (e.file ∉ removed))

end ProjectMistakesModel

/-- The editor that has the focus, as far as the core reads it:
`document()->filePath().toString()`, `currentLine()`, `currentColumn()`, and
the text document reached through `BaseTextEditor::editorWidget()->document()`.
`blockLengths` is `none` when one of the three pointers on that path is null;
otherwise it lists `QTextBlock::length()` of every block. -/
structure Editor where
  filePath : String
  currentLine : Int
  currentColumn : Int
  blockLengths : Option (List Int)
deriving DecidableEq, Repr

/-- The startup project, as far as the core reads it: `displayName()` and the
paths of `files( SourceFiles )`. -/
structure Project where
  displayName : String
  files : List String
deriving DecidableEq, Repr

/-- Thread priority handed to `Utils::asyncRun`. -/
inductive Priority where
  | HighPriority
  | LowPriority
deriving DecidableEq, Repr

/-- One `SpellCheckProcessor` started with `Utils::asyncRun`, together with the
watcher that observes its future. -/
structure Job where
  watcher : Nat
  fileName : String
  words : WordList
  previousMistakes : WordList
  priority : Priority
deriving DecidableEq, Repr

/-- Signals emitted by the core. -/
inductive Signal where
  | wordUnderCursorMistake (isMistake : Bool) (word : Option Word)
  | projectFilesChanged (added removed : Finset String)
  | activeProjectChanged (project : Option Project)
deriving DecidableEq

/-- The sender of a `finished` signal: the watcher (its address), whether its
future reports cancellation, and the result of the future. -/
structure FinishedWatcher where
  watcher : Nat
  isCanceled : Bool
  result : WordList
deriving DecidableEq, Repr

/-- Private data of the core (`SpellCheckerCorePrivate`), followed by the
traces of its outward effects. -/
structure SpellCheckerCorePrivate where
  spellingMistakesModel : ProjectMistakesModel
  /-- The words last given to `mistakesModel->setCurrentSpellingMistakes`. -/
  mistakesModel : WordList
  currentEditor : Option Editor
  currentFilePath : String
  startupProject : Option Project
  /-- The setting `settings.projectsToIgnore`. -/
  projectsToIgnore : List String
  filesInStartupProject : Finset String
  /-- The map `QMap<QFutureWatcher*, QString>`, keyed by watcher address. -/
  futureWatchers : List (Nat × String)
  filesInProcess : List String
  /-- The hash `QHash<QString, WordList>`. -/
  filesWaitingForProcess : List (String × WordList)
  shuttingDown : Bool
  /-- Trace: the jobs handed to `Utils::asyncRun`, oldest first. -/
  startedJobs : List Job
  /-- Trace: calls of `spellcheckWordsFromParser` posted with
  `Qt::QueuedConnection` by `futureFinished` and not yet delivered. -/
  queuedCalls : List (String × WordList)
  /-- The words underlined by the last `setExtraSelections`. -/
  extraSelections : List Word
  /-- Trace: the signals emitted, oldest first. -/
  emitted : List Signal

/-- State right after the constructor of `SpellCheckerCorePrivate`. -/
def SpellCheckerCorePrivate.initial : SpellCheckerCorePrivate where
  spellingMistakesModel := []
  mistakesModel := []
  currentEditor := none
  currentFilePath := ""
  startupProject := none
  projectsToIgnore := []
  filesInStartupProject := ∅
  futureWatchers := []
  filesInProcess := []
  filesWaitingForProcess := []
  shuttingDown := false
  startedJobs := []
  queuedCalls := []
  extraSelections := []
  emitted := []

/-! ## Cursor lookup -/

/-- The test of the loop of `isWordUnderCursorMistake`.  `line` and `column`
are `int32_t`; compared with the `uint32_t` fields they are converted to
unsigned, and `columnNumber + length` is computed in 32 bit unsigned
arithmetic. -/
def cursorOnWord (line column : Int) (currentWord : Word) : Bool :=
  decide (currentWord.lineNumber = toU32 line)
    && (decide (currentWord.columnNumber ≤ toU32 column)
      && decide (toU32 column ≤
          (currentWord.columnNumber + toU32 currentWord.length) % 4294967296))

/-- The `while` loop of `isWordUnderCursorMistake`: the first Word that passes
the test, in iteration order. -/
def scanWordList (line column : Int) : WordList → Option Word
  | [] => none
  | currentWord :: rest =>
    if cursorOnWord line column currentWord then some currentWord
    else scanWordList line column rest

/-- `SpellCheckerCore::isWordUnderCursorMistake`.  `some w` stands for the
return value `true` with the out parameter set to `w`; `none` stands for
`false` (the out parameter is left alone). -/
def isWordUnderCursorMistake (d : SpellCheckerCorePrivate) : Option Word :=
  match d.currentEditor with
  | none => none
  | some editor =>
    let wl := d.spellingMistakesModel.mistakesForFile editor.filePath
    if wl.isEmpty then none
    else scanWordList editor.currentLine editor.currentColumn wl

/-! ## Publishing a result -/

/-- Value of a `uint32_t` after the cast `int32_t( .. )`. -/
def toI32 (n : Nat) : Int :=
  if n % 4294967296 < 2147483648 then ((n % 4294967296 : Nat) : Int)
  else ((n % 4294967296 : Nat) : Int) - 4294967296

/-- `QTextDocument::findBlockByNumber`: the length of the block with the given
0-based number, `none` for an invalid block. -/
def findBlockByNumber (blockLengths : List Int) (blockNumber : Int) : Option Int :=
  if 0 ≤ blockNumber then blockLengths.get? blockNumber.toNat else none

/-- The guard of the underline loop of `addMisspelledWords`: the block of the
Word is valid and not shorter than `columnNumber - 1 + length` (32 bit
unsigned arithmetic). -/
def wordFitsBlock (blockLengths : List Int) (word : Word) : Bool :=
  match findBlockByNumber blockLengths (toI32 word.lineNumber - 1) with
  | none => false
  | some blockLength =>
    !(decide (toU32 blockLength <
        (word.columnNumber + 4294967295 + toU32 word.length) % 4294967296))

/-- `SpellCheckerCore::addMisspelledWords`. -/
def addMisspelledWords (d : SpellCheckerCorePrivate) (fileName : String) (words : WordList) :
    SpellCheckerCorePrivate :=
  let d1 : SpellCheckerCorePrivate :=
    { d with
      spellingMistakesModel :=
        d.spellingMistakesModel.insertSpellingMistakes fileName words
          (decide (fileName ∈ d.filesInStartupProject))
      mistakesModel := if d.currentFilePath = fileName then words else d.mistakesModel }
  if d1.currentFilePath ≠ fileName then d1
  else
    match d1.currentEditor with
    | none => d1
    | some editor =>
      match editor.blockLengths with
      | none => d1
      | some blockLengths =>
        let d2 : SpellCheckerCorePrivate :=
          { d1 with extraSelections := words.filter (wordFitsBlock blockLengths) }
        { d2 with
          emitted := d2.emitted ++
            [Signal.wordUnderCursorMistake (isWordUnderCursorMistake d2).isSome
              (isWordUnderCursorMistake d2)] }

/-! ## Job scheduler -/

/-- `QMap::find` and `QHash::find`: the value stored under a key. -/
def tableFind {κ ν : Type} [DecidableEq κ] (k : κ) : List (κ × ν) → Option ν
  | [] => none
  | e :: rest => if e.1 = k then some e.2 else tableFind k rest

/-- `QMap::erase` and `QHash::erase` of the entry of a key. -/
def tableErase {κ ν : Type} [DecidableEq κ] (k : κ) (m : List (κ × ν)) : List (κ × ν) :=
  m.filter (fun e => decide (e.1 ≠ k))

/-- `QMap::insert` and `QHash::operator[]` followed by an assignment: the key
maps to the new value, whatever it held before. -/
def tableInsert {κ ν : Type} [DecidableEq κ] (k : κ) (v : ν) (m : List (κ × ν)) :
    List (κ × ν) :=
  (k, v) :: tableErase k m

/-- The address `new QFutureWatcher<WordList>()` returns: one that differs from
the address of every watcher registered in the map (they are alive).  The
model never hands out an address twice: the new one also differs from the
watcher of every job started before. -/
def newWatcher (d : SpellCheckerCorePrivate) : Nat :=
  (d.futureWatchers.map Prod.fst ++ d.startedJobs.map Job.watcher).foldr max 0 + 1

/-- `SpellCheckerCore::spellcheckWordsFromParser`. -/
def spellcheckWordsFromParser (d : SpellCheckerCorePrivate) (fileName : String)
    (words : WordList) : SpellCheckerCorePrivate :=
  if d.shuttingDown = true then d
  else if fileName ∈ d.filesInProcess then
    { d with filesWaitingForProcess := tableInsert fileName words d.filesWaitingForProcess }
  else
    let previousMistakes := d.spellingMistakesModel.mistakesForFile fileName
    let watcher := newWatcher d
    { d with
      futureWatchers := tableInsert watcher fileName d.futureWatchers
      filesInProcess := d.filesInProcess ++ [fileName]
      startedJobs := d.startedJobs ++
        [{ watcher := watcher, fileName := fileName, words := words,
           previousMistakes := previousMistakes,
           priority := if fileName = d.currentFilePath then Priority.HighPriority
                       else Priority.LowPriority }] }

/-- `SpellCheckerCore::futureFinished`; `sender` is `none` when `sender()`
returns a null pointer.  The call of `spellcheckWordsFromParser` is not made
here: `invokeMethod( .., Qt::QueuedConnection, .. )` posts it, and the event
loop delivers it after this slot has returned (`deliverQueuedCall`). -/
def futureFinished (d : SpellCheckerCorePrivate) (sender : Option FinishedWatcher) :
    SpellCheckerCorePrivate :=
  match sender with
  | none => d
  | some watcher =>
    if d.shuttingDown = true then d
    else if watcher.isCanceled = true then d
    else
      let checkedWords := watcher.result
      match tableFind watcher.watcher d.futureWatchers with
      | none => d
      | some fileName =>
        let d1 : SpellCheckerCorePrivate :=
          { d with
            futureWatchers := tableErase watcher.watcher d.futureWatchers
            filesInProcess := d.filesInProcess.filter (fun f => f != fileName) }
        let d2 : SpellCheckerCorePrivate :=
          match tableFind fileName d1.filesWaitingForProcess with
          | some wordsToSpellCheck =>
            { d1 with
              filesWaitingForProcess := tableErase fileName d1.filesWaitingForProcess
              queuedCalls := d1.queuedCalls ++ [(fileName, wordsToSpellCheck)] }
          | none => d1
        addMisspelledWords d2 fileName checkedWords

/-- The event loop delivers the posted call number `i` (0 is the oldest):
the call leaves the queue and `spellcheckWordsFromParser` runs with its
arguments.  Qt delivers posted calls oldest first; the model lets any posted
call be delivered, which covers that order. -/
def deliverQueuedCall (d : SpellCheckerCorePrivate) (i : Nat) : SpellCheckerCorePrivate :=
  match d.queuedCalls.get? i with
  | none => d
  | some call =>
    spellcheckWordsFromParser { d with queuedCalls := d.queuedCalls.eraseIdx i } call.1 call.2

/-- `SpellCheckerCore::cancelFutures`: every registered future is cancelled
and waited for, every registered watcher is deleted, and the watcher map is
cleared. -/
def cancelFutures (d : SpellCheckerCorePrivate) : SpellCheckerCorePrivate :=
  { d with futureWatchers := [] }

/-- `SpellCheckerCore::aboutToQuit`. -/
def aboutToQuit (d : SpellCheckerCorePrivate) : SpellCheckerCorePrivate :=
  cancelFutures { d with shuttingDown := true, startupProject := none }

/-! ## Active project -/

/-- `SpellCheckerCore::startupProjectChanged`. -/
def startupProjectChanged (d : SpellCheckerCorePrivate) (startupProject : Option Project) :
    SpellCheckerCorePrivate :=
  let d1 := cancelFutures d
  let d2 : SpellCheckerCorePrivate :=
    { d1 with
      spellingMistakesModel := d1.spellingMistakesModel.clearAllSpellingMistakes
      filesInStartupProject := ∅
      startupProject := startupProject }
  let d3 : SpellCheckerCorePrivate :=
    match startupProject with
    | none => d2
    | some project =>
      if project.displayName ∈ d2.projectsToIgnore then { d2 with startupProject := none }
      else { d2 with filesInStartupProject := project.files.toFinset }
  { d3 with emitted := d3.emitted ++ [Signal.activeProjectChanged startupProject] }

/-- `SpellCheckerCore::fileListChanged`; the new file set is what the startup
project reports when the slot runs. -/
def fileListChanged (d : SpellCheckerCorePrivate) : SpellCheckerCorePrivate :=
  match d.startupProject with
  | none => d
  | some project =>
    if project.displayName ∈ d.projectsToIgnore then d
    else
      let oldFiles := d.filesInStartupProject
      let newFiles := project.files.toFinset
      let added := newFiles.filter (fun file => ¬ file ∈ oldFiles)
      let removed := oldFiles.filter (fun file => ¬ file ∈ newFiles)
      { d with
        filesInStartupProject := newFiles
        spellingMistakesModel := d.spellingMistakesModel.projectFilesChanged added removed
        emitted := d.emitted ++ [Signal.projectFilesChanged added removed] }

/-- A core whose current editor shows `a.cpp` with the cursor at the given
line and column, and whose store holds the given Words for that file. -/
def cursorCore (wl : WordList) (line column : Int) : SpellCheckerCorePrivate :=
  { SpellCheckerCorePrivate.initial with
    spellingMistakesModel := [⟨"a.cpp", wl, false⟩]
    currentEditor := some ⟨"a.cpp", line, column, none⟩
    currentFilePath := "a.cpp" }

/-- The Word of the boundary example: line 3, column 5, length 4. -/
def word354 : Word := ⟨"teh", 3, 5, 4, []⟩

/-! ## Scenarios and example states -/

/-- The job that `spellcheckWordsFromParser` starts in state `d` for a file
without a job in flight. -/
def jobFor (d : SpellCheckerCorePrivate) (fileName : String) (words : WordList) : Job :=
  { watcher := newWatcher d
    fileName := fileName
    words := words
    previousMistakes := d.spellingMistakesModel.mistakesForFile fileName
    priority := if fileName = d.currentFilePath then Priority.HighPriority
                else Priority.LowPriority }

/-- A core with a job in flight for `b.cpp`, a pending request for `b.cpp`,
and the editor on `a.cpp`. -/
def busyCore : SpellCheckerCorePrivate :=
  { SpellCheckerCorePrivate.initial with
    currentEditor := some ⟨"a.cpp", 1, 1, none⟩
    currentFilePath := "a.cpp"
    spellingMistakesModel := [⟨"a.cpp", [word354], false⟩]
    futureWatchers := [(7, "b.cpp")]
    filesInProcess := ["b.cpp"]
    filesWaitingForProcess := [("b.cpp", [word354])] }

/-- The state in which `futureFinished` publishes, when the watcher is tracked
for `fileName` and a request for that file is pending. -/
def redispatchPosted (d : SpellCheckerCorePrivate) (watcher : Nat) (fileName : String)
    (wordsToSpellCheck : WordList) : SpellCheckerCorePrivate :=
  { d with
    futureWatchers := tableErase watcher d.futureWatchers
    filesInProcess := d.filesInProcess.filter (fun f => f != fileName)
    filesWaitingForProcess := tableErase fileName d.filesWaitingForProcess
    queuedCalls := d.queuedCalls ++ [(fileName, wordsToSpellCheck)] }

/-- The core after a submit for `b.cpp` that starts a job and a second submit
for `b.cpp` that is recorded as pending. -/
def inFlightCore : SpellCheckerCorePrivate :=
  spellcheckWordsFromParser
    (spellcheckWordsFromParser SpellCheckerCorePrivate.initial "b.cpp" [word354]) "b.cpp" []

/-- One step of the scheduler: a submit, the slot of a finished watcher, the
delivery of a posted call, a cancellation of all futures, or a step of any
other slot, which leaves the watcher map and `filesInProcess` alone. -/
inductive Step : SpellCheckerCorePrivate → SpellCheckerCorePrivate → Prop where
  | submit (d : SpellCheckerCorePrivate) (fileName : String) (words : WordList) :
      Step d (spellcheckWordsFromParser d fileName words)
  | finished (d : SpellCheckerCorePrivate) (sender : Option FinishedWatcher) :
      Step d (futureFinished d sender)
  | deliver (d : SpellCheckerCorePrivate) (i : Nat) : Step d (deliverQueuedCall d i)
  | cancel (d : SpellCheckerCorePrivate) : Step d (cancelFutures d)
  | other (d d' : SpellCheckerCorePrivate) (hw : d'.futureWatchers = d.futureWatchers)
      (hf : d'.filesInProcess = d.filesInProcess) : Step d d'

/-- The states the scheduler reaches from a state with an empty in-flight
table. -/
inductive Reachable : SpellCheckerCorePrivate → Prop where
  | start (d : SpellCheckerCorePrivate) (hw : d.futureWatchers = [])
      (hf : d.filesInProcess = []) : Reachable d
  | step (d d' : SpellCheckerCorePrivate) (hd : Reachable d) (hs : Step d d') : Reachable d'

/-- Number of watchers registered in the watcher map for a file. -/
def watchersFor (d : SpellCheckerCorePrivate) (fileName : String) : Nat :=
  (d.futureWatchers.map Prod.snd).count fileName

/-- Single flight: no file has more watchers than entries in `filesInProcess`,
and no file is twice in `filesInProcess`. -/
def SingleFlight (d : SpellCheckerCorePrivate) : Prop :=
  ∀ fileName : String,
    watchersFor d fileName ≤ d.filesInProcess.count fileName
      ∧ d.filesInProcess.count fileName ≤ 1

/-- A core whose startup project `demo` reports the files b, c, d while the
core still holds the files a, b, c. -/
def projectCore : SpellCheckerCorePrivate :=
  { SpellCheckerCorePrivate.initial with
    startupProject := some ⟨"demo", ["b", "c", "d"]⟩
    filesInStartupProject := {"a", "b", "c"} }

/-- Three successive contents of line 1 of `a.cpp`, each a misspelled word. -/
def wordTeh : Word := ⟨"teh", 1, 1, 3, []⟩

/-- Second content of line 1 of `a.cpp`. -/
def wordAdn : Word := ⟨"adn", 1, 1, 3, []⟩

/-- Third and last content of line 1 of `a.cpp`. -/
def wordRecieve : Word := ⟨"recieve", 1, 1, 7, []⟩

/-- A run of the scheduler for `a.cpp`, from the initial state.  Every job
reports each of its input Words as a mistake.  The parser submits `teh`, then
`adn` while the first job runs; the first job completes and posts the
re-dispatch of `adn`; before the event loop delivers that call it delivers the
parser's third and last submit, `recieve`; then the posted call arrives, the
second and the third job complete, and the second posted call is delivered in
between. -/
def lateRedispatchRun : SpellCheckerCorePrivate :=
  let s1 := spellcheckWordsFromParser SpellCheckerCorePrivate.initial "a.cpp" [wordTeh]
  let s2 := spellcheckWordsFromParser s1 "a.cpp" [wordAdn]
  let s3 := futureFinished s2 (some ⟨1, false, [wordTeh]⟩)
  let s4 := spellcheckWordsFromParser s3 "a.cpp" [wordRecieve]
  let s5 := deliverQueuedCall s4 0
  let s6 := futureFinished s5 (some ⟨2, false, [wordRecieve]⟩)
  let s7 := deliverQueuedCall s6 0
  futureFinished s7 (some ⟨3, false, [wordAdn]⟩)

/-- A core whose current file is `a.cpp` and whose current editor is not a text
editor with a document (the path to `document()` yields a null pointer). -/
def plainEditorCore : SpellCheckerCorePrivate :=
  { SpellCheckerCorePrivate.initial with
    currentEditor := some ⟨"a.cpp", 3, 5, none⟩
    currentFilePath := "a.cpp" }

/-- A core whose current file is `a.cpp`, shown in a text editor with three
blocks of length 20 and the cursor at line 3, column 5. -/
def textEditorCore : SpellCheckerCorePrivate :=
  { SpellCheckerCorePrivate.initial with
    currentEditor := some ⟨"a.cpp", 3, 5, some [20, 20, 20]⟩
    currentFilePath := "a.cpp" }

/-- Two Words on line 3 whose spans both cover column 6. -/
def wordOuter : Word := ⟨"mispelled", 3, 2, 9, []⟩

/-- The second of the two overlapping Words. -/
def wordInner : Word := ⟨"spel", 3, 5, 4, []⟩

/-! ## Commands on the word under the cursor: occurrences -/

/-- The `while` loop of `getAllOccurrencesOfWord`: every Word of the file whose
text equals the text of `word` (`QString::operator==`, case sensitive) is
appended to `words`. -/
def appendOccurrences (word : Word) : WordList → WordList → WordList
  | [], words => words
  | currentWord :: rest, words =>
    appendOccurrences word rest
      (if currentWord.text = word.text then words ++ [currentWord] else words)

/-- `SpellCheckerCore::getAllOccurrencesOfWord`: the return value and the
out parameter `words` after the call. -/
def getAllOccurrencesOfWord (d : SpellCheckerCorePrivate) (word : Word) (words : WordList) :
    Bool × WordList :=
  match d.currentEditor with
  | none => (false, words)
  | some editor =>
    let wl := d.spellingMistakesModel.mistakesForFile editor.filePath
    if wl.isEmpty then (false, words)
    else (decide (wl.length > 0), appendOccurrences word wl words)

/-- The same word in two spellings that differ in case only. -/
def wordTehUpper : Word := ⟨"Teh", 2, 1, 3, []⟩

/-- A second occurrence of `teh`, on line 5. -/
def wordTehAgain : Word := ⟨"teh", 5, 7, 3, []⟩

/-- A core whose current file `a.cpp` has four mistakes: `teh`, `Teh`, `adn`
and `teh` again. -/
def occurrencesCore : SpellCheckerCorePrivate :=
  cursorCore [wordTeh, wordTehUpper, wordAdn, wordTehAgain] 1 1

/-! ## Commands on the word under the cursor: ignore and add -/

/-- Modelled from the spec: `ProjectMistakesModel::removeAllOccurrences` is not
part of the sources.  "Deletes every Word with `text == text` from every file's
collection, across the whole store." -/
def ProjectMistakesModel.removeAllOccurrences (m : ProjectMistakesModel) (text : String) :
    ProjectMistakesModel :=
  m.map (fun e => { e with words := e.words.filter (fun w => w.text != text) })

/-- Modelled from the spec: `ProjectMistakesModel::indexOfFile` is not part of
the sources.  The store is a "mapping from file identifier" to its mistakes;
the function gives the position of the row of the file, and -1 when the store
has no row for the file. -/
def ProjectMistakesModel.indexOfFile (m : ProjectMistakesModel) (fileName : String) : Int :=
  if m.any (fun e => e.file == fileName) then
    ((m.findIdx (fun e => e.file == fileName) : Nat) : Int)
  else -1

/-- The spelling capability behind `d->spellChecker`, as far as
`removeWordUnderCursor` calls it: `ignoreWord` and `addWord` report whether
the word was registered. -/
structure ISpellChecker where
  ignoreWord : String → Bool
  addWord : String → Bool

/-- The enumeration `RemoveAction`. -/
inductive RemoveAction where
  | Ignore
  | Add
deriving DecidableEq, Repr

/-- The `switch` of `removeWordUnderCursor`: the call that the action selects
and its return value. -/
def askSpellChecker (spellChecker : ISpellChecker) (action : RemoveAction)
    (wordToRemove : String) : Bool :=
  match action with
  | RemoveAction.Ignore => spellChecker.ignoreWord wordToRemove
  | RemoveAction.Add => spellChecker.addWord wordToRemove

/-- `SpellCheckerCore::removeWordUnderCursor`; `spellChecker` is the value of
`d->spellChecker`, `none` for a null pointer. -/
def removeWordUnderCursor (d : SpellCheckerCorePrivate) (spellChecker : Option ISpellChecker)
    (action : RemoveAction) : SpellCheckerCorePrivate :=
  match d.currentEditor with
  | none => d
  | some editor =>
    match spellChecker with
    | none => d
    | some checker =>
      let currentFileName := editor.filePath
      if d.spellingMistakesModel.indexOfFile currentFileName = -1 then d
      else
        match isWordUnderCursorMistake d with
        | none => d
        | some word =>
          if askSpellChecker checker action word.text = true then
            let d1 : SpellCheckerCorePrivate :=
              { d with
                spellingMistakesModel :=
                  d.spellingMistakesModel.removeAllOccurrences word.text }
            let newList := d1.spellingMistakesModel.mistakesForFile currentFileName
            let d2 := addMisspelledWords d1 currentFileName newList
            { d2 with emitted := d2.emitted ++ [Signal.wordUnderCursorMistake false none] }
          else d

/-- `SpellCheckerCore::ignoreWordUnderCursor`. -/
def ignoreWordUnderCursor (d : SpellCheckerCorePrivate) (spellChecker : Option ISpellChecker) :
    SpellCheckerCorePrivate :=
  removeWordUnderCursor d spellChecker RemoveAction.Ignore

/-- `SpellCheckerCore::addWordUnderCursor`. -/
def addWordUnderCursor (d : SpellCheckerCorePrivate) (spellChecker : Option ISpellChecker) :
    SpellCheckerCorePrivate :=
  removeWordUnderCursor d spellChecker RemoveAction.Add

/-- A spelling capability that registers every word. -/
def acceptingChecker : ISpellChecker := ⟨fun _ => true, fun _ => true⟩

/-- A spelling capability that registers no word. -/
def refusingChecker : ISpellChecker := ⟨fun _ => false, fun _ => false⟩

/-- A core with mistakes in two files: `teh` and `adn` in the current file
`a.cpp`, `teh` and `recieve` in `b.cpp`; the cursor is on `teh` in `a.cpp`, and
a job for `b.cpp` is in flight. -/
def twoFilesCore : SpellCheckerCorePrivate :=
  { SpellCheckerCorePrivate.initial with
    spellingMistakesModel :=
      [⟨"a.cpp", [wordTeh, wordAdn], false⟩, ⟨"b.cpp", [wordTehAgain, wordRecieve], false⟩]
    mistakesModel := [wordTeh, wordAdn]
    currentEditor := some ⟨"a.cpp", 1, 2, none⟩
    currentFilePath := "a.cpp"
    futureWatchers := [(7, "b.cpp")]
    filesInProcess := ["b.cpp"]
    filesWaitingForProcess := [("b.cpp", [word354])] }

/-- A run from the initial state: a submit for `a.cpp` starts a job; the
startup project changes to `demo` (not a shutdown) while that job is in
flight; then the parser submits new words for `a.cpp`. -/
def projectSwitchRun : SpellCheckerCorePrivate :=
  spellcheckWordsFromParser
    (startupProjectChanged
      (spellcheckWordsFromParser SpellCheckerCorePrivate.initial "a.cpp" [wordTeh])
      (some ⟨"demo", ["a.cpp"]⟩))
    "a.cpp" [wordAdn]

/-! ## Commands on the word under the cursor: replacement in the editor -/

/-- The text editor widget reached through `d->currentEditor->widget()`: the
plain text of its document, blocks separated by a line feed, and the position
of its text cursor.  The widget belongs to Qt Creator, not to the plugin. -/
structure TextEditorWidget where
  text : List Char
  cursorPosition : Nat
deriving DecidableEq, Repr

/-- The line feed that separates the blocks of the document text. -/
def lineFeed : Char := Char.ofNat 10

/-- `QTextDocument::blockCount`. -/
def blockCount (text : List Char) : Nat := text.count lineFeed + 1

/-- Position of the first character of the block with the given 0-based
number, `none` when the document has no such block. -/
def blockPosition : List Char → Nat → Option Nat
  | _, 0 => some 0
  | [], _ + 1 => none
  | c :: rest, n + 1 =>
    if c = lineFeed then (blockPosition rest n).map (fun pos => pos + 1)
    else (blockPosition rest (n + 1)).map (fun pos => pos + 1)

/-- Characters of the category `QChar::Separator_Space`: the space and the
no-break space. -/
def isSeparatorSpace (c : Char) : Bool := c = Char.ofNat 32 || c = Char.ofNat 160

/-- `TextEditorWidget::gotoLine( line, column )` of Qt Creator: the text cursor
goes to the 1-based `line` (a line past the end is the last line) and the
0-based `column`; for a column that is not positive the cursor goes to the
first character of the line that is not a space; for an invalid block the
cursor stays where it is.  The cursor does not leave the document. -/
def gotoLine (w : TextEditorWidget) (line column : Int) : TextEditorWidget :=
  let blockNumber : Int := min line (blockCount w.text : Int) - 1
  if blockNumber < 0 then w
  else
    match blockPosition w.text blockNumber.toNat with
    | none => w
    | some start =>
      if column > 0 then
        { w with cursorPosition := min (start + column.toNat) w.text.length }
      else
        { w with
          cursorPosition := start + ((w.text.drop start).takeWhile isSeparatorSpace).length }

/-- The edit block of the loop of `replaceWordsInCurrentEditor`: the text
between the two positions is removed and the replacement is inserted there.
The text cursor of the widget follows the edit as a `QTextCursor` does. -/
def replaceSelection (w : TextEditorWidget) (wordStartPos wordEndPos : Nat)
    (replacement : List Char) : TextEditorWidget :=
  let selectionStart := min wordStartPos wordEndPos
  let selectionEnd := max wordStartPos wordEndPos
  let afterRemoval : Nat :=
    if selectionEnd ≤ w.cursorPosition then w.cursorPosition - (selectionEnd - selectionStart)
    else if selectionStart < w.cursorPosition then selectionStart
    else w.cursorPosition
  { text := w.text.take selectionStart ++ replacement ++ w.text.drop selectionEnd
    cursorPosition :=
      if selectionStart ≤ afterRemoval then afterRemoval + replacement.length
      else afterRemoval }

/-- The body of the loop of `replaceWordsInCurrentEditor` for one Word. -/
def replaceOneWord (replacementWord : String) (w : TextEditorWidget) (wordToReplace : Word) :
    TextEditorWidget :=
  let w1 := gotoLine w (toI32 wordToReplace.lineNumber) (toI32 wordToReplace.columnNumber - 1)
  let wordStartPos := w1.cursorPosition
  let w2 := gotoLine w1 (toI32 wordToReplace.lineNumber)
    (toI32 wordToReplace.columnNumber + wordToReplace.length - 1)
  let wordEndPos := w2.cursorPosition
  replaceSelection w2 wordStartPos wordEndPos replacementWord.toList

/-- `SpellCheckerCore::replaceWordsInCurrentEditor`.  `editorWidget` is the
result of the cast of `d->currentEditor->widget()`, `none` for a null pointer.
The result is the widget after the call and the number shown by the fading
indicator, if it is shown. -/
def replaceWordsInCurrentEditor (d : SpellCheckerCorePrivate)
    (editorWidget : Option TextEditorWidget) (wordsToReplace : WordList)
    (replacementWord : String) : Option TextEditorWidget × Option Nat :=
  if wordsToReplace.length = 0 then (editorWidget, none)
  else
    match d.currentEditor with
    | none => (editorWidget, none)
    | some _ =>
      match editorWidget with
      | none => (none, none)
      | some w =>
        (some (wordsToReplace.foldl (replaceOneWord replacementWord) w),
          if wordsToReplace.length > 1 then some wordsToReplace.length else none)

/-- The first `teh` of the line `teh teh`. -/
def tehFirst : Word := ⟨"teh", 1, 1, 3, []⟩

/-- The second `teh` of the line `teh teh`. -/
def tehSecond : Word := ⟨"teh", 1, 5, 3, []⟩

/-- An editor widget that shows the one line `teh teh`. -/
def tehTehWidget : TextEditorWidget := ⟨"teh teh".toList, 0⟩

/-- The block `if( wordRemoved == true )` of `removeWordUnderCursor`: all
occurrences of the text are removed from the store, the new list of the
current editor's file is read from the store and published with
`addMisspelledWords`, and `wordUnderCursorMistake( false )` is emitted. -/
def removeAndRepublish (d : SpellCheckerCorePrivate) (currentFileName : String)
    (text : String) : SpellCheckerCorePrivate :=
  { addMisspelledWords
      { d with spellingMistakesModel := d.spellingMistakesModel.removeAllOccurrences text }
      currentFileName
      ((d.spellingMistakesModel.removeAllOccurrences text).mistakesForFile currentFileName) with
    emitted :=
      (addMisspelledWords
        { d with spellingMistakesModel := d.spellingMistakesModel.removeAllOccurrences text }
        currentFileName
        ((d.spellingMistakesModel.removeAllOccurrences text).mistakesForFile
          currentFileName)).emitted ++ [Signal.wordUnderCursorMistake false none] }

/-- A spelling capability that registers a word when asked to ignore it and
refuses to add it. -/
def ignoringChecker : ISpellChecker := ⟨fun _ => true, fun _ => false⟩

/-- The core `twoFilesCore` with both files in the startup project; the rows
of the store were inserted before the files belonged to the project. -/
def twoProjectFilesCore : SpellCheckerCorePrivate :=
  { twoFilesCore with filesInStartupProject := {"a.cpp", "b.cpp"} }

/-! # Properties -/

/-! ## Tables: find, erase, insert -/

section Tables

variable {κ ν : Type} [DecidableEq κ]

theorem tableFind_erase_self (k : κ) (m : List (κ × ν)) :
    tableFind k (tableErase k m) = none := by
  induction m with
  | nil => rfl
  | cons e rest ih =>
    obtain ⟨a, b⟩ := e
    by_cases h : a = k
    · subst h
      simpa [tableErase] using ih
    · simpa [tableErase, tableFind, h] using ih

theorem tableErase_cons_eq (k : κ) (v : ν) (m : List (κ × ν)) :
    tableErase k ((k, v) :: m) = tableErase k m := by
  simp [tableErase]

theorem tableErase_cons_ne {k a : κ} (h : a ≠ k) (v : ν) (m : List (κ × ν)) :
    tableErase k ((a, v) :: m) = (a, v) :: tableErase k m := by
  simp [tableErase, h]

theorem tableFind_cons_eq (k : κ) (v : ν) (m : List (κ × ν)) :
    tableFind k ((k, v) :: m) = some v := by
  simp [tableFind]

theorem tableFind_cons_ne {k a : κ} (h : a ≠ k) (v : ν) (m : List (κ × ν)) :
    tableFind k ((a, v) :: m) = tableFind k m := by
  simp [tableFind, h]

theorem tableFind_erase_ne {k k' : κ} (h : k' ≠ k) (m : List (κ × ν)) :
    tableFind k' (tableErase k m) = tableFind k' m := by
  induction m with
  | nil => rfl
  | cons e rest ih =>
    obtain ⟨a, b⟩ := e
    by_cases h1 : a = k
    · subst h1
      rw [tableErase_cons_eq, ih, tableFind_cons_ne (fun h3 => h h3.symm)]
    · rw [tableErase_cons_ne h1]
      by_cases h2 : a = k'
      · subst h2
        rw [tableFind_cons_eq, tableFind_cons_eq]
      · rw [tableFind_cons_ne h2, tableFind_cons_ne h2, ih]

theorem tableFind_insert_self (k : κ) (v : ν) (m : List (κ × ν)) :
    tableFind k (tableInsert k v m) = some v := by
  simp [tableInsert, tableFind]

theorem tableFind_insert_ne {k k' : κ} (h : k' ≠ k) (v : ν) (m : List (κ × ν)) :
    tableFind k' (tableInsert k v m) = tableFind k' m := by
  have h2 : k ≠ k' := fun h3 => h h3.symm
  simp [tableInsert, tableFind, h2, tableFind_erase_ne h]

theorem tableErase_of_not_mem {k : κ} {m : List (κ × ν)} (h : k ∉ m.map Prod.fst) :
    tableErase k m = m := by
  unfold tableErase
  rw [List.filter_eq_self]
  intro e he
  have : e.1 ≠ k := fun h1 => h (h1 ▸ List.mem_map_of_mem Prod.fst he)
  simpa using this

theorem tableFind_eq_none_of_not_mem {k : κ} {m : List (κ × ν)} (h : k ∉ m.map Prod.fst) :
    tableFind k m = none := by
  rw [← tableErase_of_not_mem h]
  exact tableFind_erase_self k m

end Tables

theorem le_foldr_max {k : Nat} {l : List Nat} (h : k ∈ l) : k ≤ l.foldr max 0 := by
  induction l with
  | nil => cases h
  | cons a rest ih =>
    simp only [List.foldr_cons]
    rcases List.mem_cons.mp h with h1 | h1
    · subst h1
      exact le_max_left _ _
    · exact le_trans (ih h1) (le_max_right _ _)

/-- The address of a new watcher is not a key of the watcher map. -/
theorem newWatcher_not_mem (d : SpellCheckerCorePrivate) :
    newWatcher d ∉ d.futureWatchers.map Prod.fst := by
  intro h
  have := le_foldr_max (List.mem_append_left (d.startedJobs.map Job.watcher) h)
  unfold newWatcher at this
  omega

theorem tableErase_newWatcher (d : SpellCheckerCorePrivate) :
    tableErase (newWatcher d) d.futureWatchers = d.futureWatchers :=
  tableErase_of_not_mem (newWatcher_not_mem d)

/-! ## Cursor lookup: the matched span -/

theorem scanWordList_some {line column : Int} {wl : WordList} {w : Word}
    (h : scanWordList line column wl = some w) :
    w ∈ wl ∧ cursorOnWord line column w = true := by
  induction wl with
  | nil => simp [scanWordList] at h
  | cons currentWord rest ih =>
    unfold scanWordList at h
    split at h
    · rename_i hm
      cases h
      exact ⟨List.mem_cons_self _ _, hm⟩
    · exact ⟨List.mem_cons_of_mem _ (ih h).1, (ih h).2⟩

theorem isWordUnderCursorMistake_some {d : SpellCheckerCorePrivate} {editor : Editor}
    {w : Word} (hed : d.currentEditor = some editor)
    (h : isWordUnderCursorMistake d = some w) :
    w ∈ d.spellingMistakesModel.mistakesForFile editor.filePath ∧
      cursorOnWord editor.currentLine editor.currentColumn w = true := by
  unfold isWordUnderCursorMistake at h
  rw [hed] at h
  simp only at h
  split at h
  · cases h
  · exact scanWordList_some h

theorem toU32_of_range {x : Int} (h0 : 0 ≤ x) (h1 : x < 4294967296) :
    ((toU32 x : Nat) : Int) = x := by
  unfold toU32
  omega

/-- C1, as the code has it.  A Word `w` that the cursor lookup returns for the
cursor line `L` and column `x` belongs to the mistakes of the current editor's
file and passes the comparison of the loop, which the code makes in 32 bit
unsigned arithmetic: `w.lineNumber` equals `L`, `w.columnNumber <= x`, and
`x <= w.columnNumber + w.length`, each side taken modulo 2^32.  Whenever the
arithmetic does not wrap (`L` and `x` are not negative and below 2^31, the
length `n` is not negative and `c + n` is below 2^32 for the column `c`) this
is: `w` lies on line `L` and `c <= x <= c + n`; the span is closed at `c + n`,
the caret position right behind the last character.  For the store holding
only the Word at line 3, column 5 with length 4, the lookup at (3,5), (3,8) and
(3,9) returns that Word and the lookup at (3,4) and (3,10) returns none. -/
theorem cursor_lookup_span_closed (d : SpellCheckerCorePrivate) (editor : Editor) (w : Word)
    (hed : d.currentEditor = some editor)
    (hfound : isWordUnderCursorMistake d = some w) :
    (w ∈ d.spellingMistakesModel.mistakesForFile editor.filePath
      ∧ w.lineNumber = toU32 editor.currentLine
      ∧ w.columnNumber ≤ toU32 editor.currentColumn
      ∧ toU32 editor.currentColumn ≤ (w.columnNumber + toU32 w.length) % 4294967296)
    ∧ (0 ≤ editor.currentLine → editor.currentLine < 2147483648 →
        0 ≤ editor.currentColumn → editor.currentColumn < 2147483648 →
        0 ≤ w.length → (w.columnNumber : Int) + w.length < 4294967296 →
          (w.lineNumber : Int) = editor.currentLine
          ∧ (w.columnNumber : Int) ≤ editor.currentColumn
          ∧ editor.currentColumn ≤ (w.columnNumber : Int) + w.length)
    ∧ isWordUnderCursorMistake (cursorCore [word354] 3 5) = some word354
    ∧ isWordUnderCursorMistake (cursorCore [word354] 3 8) = some word354
    ∧ isWordUnderCursorMistake (cursorCore [word354] 3 9) = some word354
    ∧ isWordUnderCursorMistake (cursorCore [word354] 3 4) = none
    ∧ isWordUnderCursorMistake (cursorCore [word354] 3 10) = none := by
  obtain ⟨hmem, hm⟩ := isWordUnderCursorMistake_some hed hfound
  simp only [cursorOnWord, Bool.and_eq_true, decide_eq_true_eq] at hm
  obtain ⟨hl, hc, hr⟩ := hm
  refine ⟨⟨hmem, hl, hc, hr⟩, ?_, by decide, by decide, by decide, by decide, by decide⟩
  intro hline0 hline1 hcol0 hcol1 hlen hspan
  have e1 := toU32_of_range hline0 (by omega : editor.currentLine < 4294967296)
  have e2 := toU32_of_range hcol0 (by omega : editor.currentColumn < 4294967296)
  have e3 := toU32_of_range hlen (by omega : w.length < 4294967296)
  have hr2 : (w.columnNumber + toU32 w.length) % 4294967296
      = w.columnNumber + toU32 w.length := Nat.mod_eq_of_lt (by omega)
  refine ⟨by omega, by omega, ?_⟩
  omega

/-- Witness of C1: the cursor at line 3, column 9 and the Word at column 5 with
length 4; neither side of the comparison wraps, so the Word lies on line 3 and
5 <= 9 <= 5 + 4. -/
theorem cursor_lookup_span_closed_witness :
    (word354 ∈ (cursorCore [word354] 3 9).spellingMistakesModel.mistakesForFile "a.cpp"
      ∧ word354.lineNumber = toU32 3
      ∧ word354.columnNumber ≤ toU32 9
      ∧ toU32 9 ≤ (word354.columnNumber + toU32 word354.length) % 4294967296)
    ∧ ((word354.lineNumber : Int) = 3
      ∧ (word354.columnNumber : Int) ≤ 9
      ∧ (9 : Int) ≤ (word354.columnNumber : Int) + word354.length) :=
  ⟨(cursor_lookup_span_closed (cursorCore [word354] 3 9) ⟨"a.cpp", 3, 9, none⟩ word354
      rfl (by decide)).1,
    (cursor_lookup_span_closed (cursorCore [word354] 3 9) ⟨"a.cpp", 3, 9, none⟩ word354
      rfl (by decide)).2.1 (by decide) (by decide) (by decide) (by decide) (by decide)
      (by decide)⟩

/-- The comparison wraps for a negative length: a Word at column 1 whose
length is -3 is returned for the cursor at column 100 of its line. -/
theorem cursor_lookup_wraps_for_negative_length :
    isWordUnderCursorMistake (cursorCore [⟨"x", 3, 1, -3, []⟩] 3 100) =
      some ⟨"x", 3, 1, -3, []⟩ := by
  decide

/-- C1 as stated fails: with only the Word at line 3, column 5, length 4 in the
store, the lookup at line 3, column 9 returns that Word although 9 is not below
5 + 4; so a returned Word need not satisfy `c <= x < c + n`. -/
theorem cursor_lookup_half_open_fails :
    isWordUnderCursorMistake (cursorCore [word354] 3 9) = some word354
    ∧ ¬ (∀ (wl : WordList) (line column : Int) (w : Word),
          isWordUnderCursorMistake (cursorCore wl line column) = some w →
          (w.columnNumber : Int) ≤ column ∧ column < (w.columnNumber : Int) + w.length) := by
  refine ⟨by decide, fun h => ?_⟩
  have h9 := h [word354] 3 9 word354 (by decide)
  exact absurd h9.2 (by decide)

/-! ## Scheduler: one call of submit -/

theorem spellcheckWordsFromParser_idle (d : SpellCheckerCorePrivate) (fileName : String)
    (words : WordList) (hs : d.shuttingDown = false) (hf : fileName ∉ d.filesInProcess) :
    spellcheckWordsFromParser d fileName words =
      { d with
        futureWatchers := (newWatcher d, fileName) :: d.futureWatchers
        filesInProcess := d.filesInProcess ++ [fileName]
        startedJobs := d.startedJobs ++ [jobFor d fileName words] } := by
  simp [spellcheckWordsFromParser, hs, hf, tableInsert, tableErase_newWatcher, jobFor]

theorem spellcheckWordsFromParser_busy (d : SpellCheckerCorePrivate) (fileName : String)
    (words : WordList) (hs : d.shuttingDown = false) (hf : fileName ∈ d.filesInProcess) :
    spellcheckWordsFromParser d fileName words =
      { d with
        filesWaitingForProcess := tableInsert fileName words d.filesWaitingForProcess } := by
  simp [spellcheckWordsFromParser, hs, hf]

/-- C8: when the core is not shutting down and `fileName` is not in
`filesInProcess`, `spellcheckWordsFromParser` starts exactly one job: its input
is `words`, its baseline is the store's `mistakesForFile fileName` at the call,
its priority is high exactly when the file is `currentFilePath`; one new
watcher, not registered before, is mapped to the file, the file is appended to
`filesInProcess`, and the pending table `filesWaitingForProcess` is unchanged. -/
theorem submit_idle_starts_one_job (d : SpellCheckerCorePrivate) (fileName : String)
    (words : WordList) (hs : d.shuttingDown = false) (hf : fileName ∉ d.filesInProcess) :
    (spellcheckWordsFromParser d fileName words).startedJobs =
        d.startedJobs ++
          [{ watcher := newWatcher d
             fileName := fileName
             words := words
             previousMistakes := d.spellingMistakesModel.mistakesForFile fileName
             priority := if fileName = d.currentFilePath then Priority.HighPriority
                         else Priority.LowPriority }]
    ∧ (spellcheckWordsFromParser d fileName words).futureWatchers =
        (newWatcher d, fileName) :: d.futureWatchers
    ∧ tableFind (newWatcher d) d.futureWatchers = none
    ∧ (spellcheckWordsFromParser d fileName words).filesInProcess =
        d.filesInProcess ++ [fileName]
    ∧ (spellcheckWordsFromParser d fileName words).filesWaitingForProcess =
        d.filesWaitingForProcess := by
  rw [spellcheckWordsFromParser_idle d fileName words hs hf]
  exact ⟨rfl, rfl, tableFind_eq_none_of_not_mem (newWatcher_not_mem _), rfl, rfl⟩

/-- Witness of C8: a submit for `a.cpp`, the current file, while only `b.cpp`
is in flight. -/
theorem submit_idle_starts_one_job_witness :
    (spellcheckWordsFromParser busyCore "a.cpp" []).startedJobs =
        [{ watcher := 8, fileName := "a.cpp", words := [], previousMistakes := [word354],
           priority := Priority.HighPriority }]
    ∧ (spellcheckWordsFromParser busyCore "a.cpp" []).futureWatchers =
        [(8, "a.cpp"), (7, "b.cpp")]
    ∧ tableFind 8 busyCore.futureWatchers = none
    ∧ (spellcheckWordsFromParser busyCore "a.cpp" []).filesInProcess = ["b.cpp", "a.cpp"]
    ∧ (spellcheckWordsFromParser busyCore "a.cpp" []).filesWaitingForProcess =
        [("b.cpp", [word354])] :=
  submit_idle_starts_one_job busyCore "a.cpp" [] rfl (by decide)

/-- C9: when `fileName` is in `filesInProcess` and the core is not shutting
down, `spellcheckWordsFromParser` makes `filesWaitingForProcess[fileName]` the
new `words` whatever it held, leaves the pending request of every other file
as it was, starts no job and posts no call, and leaves the watcher map and
`filesInProcess` unchanged. -/
theorem submit_busy_overwrites_pending (d : SpellCheckerCorePrivate) (fileName : String)
    (words : WordList) (hs : d.shuttingDown = false) (hf : fileName ∈ d.filesInProcess) :
    tableFind fileName (spellcheckWordsFromParser d fileName words).filesWaitingForProcess =
        some words
    ∧ (∀ other : String, other ≠ fileName →
        tableFind other (spellcheckWordsFromParser d fileName words).filesWaitingForProcess =
          tableFind other d.filesWaitingForProcess)
    ∧ (spellcheckWordsFromParser d fileName words).startedJobs = d.startedJobs
    ∧ (spellcheckWordsFromParser d fileName words).queuedCalls = d.queuedCalls
    ∧ (spellcheckWordsFromParser d fileName words).futureWatchers = d.futureWatchers
    ∧ (spellcheckWordsFromParser d fileName words).filesInProcess = d.filesInProcess := by
  rw [spellcheckWordsFromParser_busy d fileName words hs hf]
  exact ⟨tableFind_insert_self _ _ _, fun other h => tableFind_insert_ne h _ _,
    rfl, rfl, rfl, rfl⟩

/-- Witness of C9: a submit for `b.cpp` while its job is in flight and an
older request is pending. -/
theorem submit_busy_overwrites_pending_witness :
    tableFind "b.cpp" (spellcheckWordsFromParser busyCore "b.cpp" []).filesWaitingForProcess =
        some []
    ∧ (∀ other : String, other ≠ "b.cpp" →
        tableFind other (spellcheckWordsFromParser busyCore "b.cpp" []).filesWaitingForProcess =
          tableFind other busyCore.filesWaitingForProcess)
    ∧ (spellcheckWordsFromParser busyCore "b.cpp" []).startedJobs = busyCore.startedJobs
    ∧ (spellcheckWordsFromParser busyCore "b.cpp" []).queuedCalls = busyCore.queuedCalls
    ∧ (spellcheckWordsFromParser busyCore "b.cpp" []).futureWatchers = busyCore.futureWatchers
    ∧ (spellcheckWordsFromParser busyCore "b.cpp" []).filesInProcess =
        busyCore.filesInProcess :=
  submit_busy_overwrites_pending busyCore "b.cpp" [] rfl (by decide)

/-! ## Scheduler: completion and re-dispatch -/

theorem mistakesForFile_insertSpellingMistakes (m : ProjectMistakesModel) (fileName : String)
    (words : WordList) (flag : Bool) :
    (m.insertSpellingMistakes fileName words flag).mistakesForFile fileName = words := by
  simp [ProjectMistakesModel.mistakesForFile, ProjectMistakesModel.insertSpellingMistakes]

/-- Publishing a result touches neither the scheduler tables nor the traces of
started jobs and posted calls, and it replaces the mistakes of the file. -/
theorem addMisspelledWords_frame (d : SpellCheckerCorePrivate) (fileName : String)
    (words : WordList) :
    (addMisspelledWords d fileName words).futureWatchers = d.futureWatchers
    ∧ (addMisspelledWords d fileName words).filesInProcess = d.filesInProcess
    ∧ (addMisspelledWords d fileName words).filesWaitingForProcess = d.filesWaitingForProcess
    ∧ (addMisspelledWords d fileName words).shuttingDown = d.shuttingDown
    ∧ (addMisspelledWords d fileName words).startedJobs = d.startedJobs
    ∧ (addMisspelledWords d fileName words).queuedCalls = d.queuedCalls
    ∧ (addMisspelledWords d fileName words).currentFilePath = d.currentFilePath
    ∧ (addMisspelledWords d fileName words).spellingMistakesModel =
        d.spellingMistakesModel.insertSpellingMistakes fileName words
          (decide (fileName ∈ d.filesInStartupProject)) := by
  unfold addMisspelledWords
  dsimp only
  split
  · exact ⟨rfl, rfl, rfl, rfl, rfl, rfl, rfl, rfl⟩
  · split
    · exact ⟨rfl, rfl, rfl, rfl, rfl, rfl, rfl, rfl⟩
    · split
      · exact ⟨rfl, rfl, rfl, rfl, rfl, rfl, rfl, rfl⟩
      · exact ⟨rfl, rfl, rfl, rfl, rfl, rfl, rfl, rfl⟩

theorem futureFinished_pending (d : SpellCheckerCorePrivate) (watcher : FinishedWatcher)
    (fileName : String) (wordsToSpellCheck : WordList)
    (hs : d.shuttingDown = false) (hc : watcher.isCanceled = false)
    (hw : tableFind watcher.watcher d.futureWatchers = some fileName)
    (hp : tableFind fileName d.filesWaitingForProcess = some wordsToSpellCheck) :
    futureFinished d (some watcher) =
      addMisspelledWords (redispatchPosted d watcher.watcher fileName wordsToSpellCheck)
        fileName watcher.result := by
  simp [futureFinished, hs, hc, hw, hp, redispatchPosted]

theorem get?_length_append_singleton {α : Type} (l : List α) (x : α) :
    (l ++ [x]).get? l.length = some x := by
  induction l with
  | nil => rfl
  | cons a rest ih => simp

theorem eraseIdx_length_append_singleton {α : Type} (l : List α) (x : α) :
    (l ++ [x]).eraseIdx l.length = l := by
  induction l with
  | nil => rfl
  | cons a rest ih => simpa using ih

theorem not_mem_filter_bne (l : List String) (fileName : String) :
    fileName ∉ l.filter (fun f => f != fileName) := by
  simp [List.mem_filter]

/-- The state after the event loop has delivered the call that a completion
posted last: the queue is back to what it was, and `spellcheckWordsFromParser`
has run on the published state. -/
theorem deliverQueuedCall_posted (d' : SpellCheckerCorePrivate)
    (queue : List (String × WordList)) (fileName : String) (words : WordList)
    (hq : d'.queuedCalls = queue ++ [(fileName, words)]) :
    deliverQueuedCall d' queue.length =
      spellcheckWordsFromParser { d' with queuedCalls := queue } fileName words := by
  unfold deliverQueuedCall
  rw [hq, get?_length_append_singleton, eraseIdx_length_append_singleton]

/-- What the completion step leaves behind when a request is pending. -/
theorem completion_posts_redispatch_core (d : SpellCheckerCorePrivate)
    (watcher : FinishedWatcher) (fileName : String) (wordsToSpellCheck : WordList)
    (hs : d.shuttingDown = false) (hc : watcher.isCanceled = false)
    (hw : tableFind watcher.watcher d.futureWatchers = some fileName)
    (hp : tableFind fileName d.filesWaitingForProcess = some wordsToSpellCheck) :
    tableFind fileName (futureFinished d (some watcher)).filesWaitingForProcess = none
      ∧ (futureFinished d (some watcher)).queuedCalls =
          d.queuedCalls ++ [(fileName, wordsToSpellCheck)]
      ∧ (futureFinished d (some watcher)).startedJobs = d.startedJobs
      ∧ fileName ∉ (futureFinished d (some watcher)).filesInProcess
      ∧ tableFind watcher.watcher (futureFinished d (some watcher)).futureWatchers = none
      ∧ (futureFinished d (some watcher)).spellingMistakesModel.mistakesForFile fileName =
          watcher.result := by
  have hff := futureFinished_pending d watcher fileName wordsToSpellCheck hs hc hw hp
  obtain ⟨f1, f2, f3, f4, f5, f6, f7, f8⟩ :=
    addMisspelledWords_frame (redispatchPosted d watcher.watcher fileName wordsToSpellCheck)
      fileName watcher.result
  rw [← hff] at f1 f2 f3 f4 f5 f6 f7 f8
  refine ⟨?_, by rw [f6]; rfl, by rw [f5]; rfl, ?_, ?_, ?_⟩
  · rw [f3]; exact tableFind_erase_self _ _
  · rw [f2]; exact not_mem_filter_bne _ _
  · rw [f1]; exact tableFind_erase_self _ _
  · rw [f8]; exact mistakesForFile_insertSpellingMistakes _ _ _ _

/-- The completion step of C10 followed by the delivery of the call it posted:
the state in which the re-dispatched job starts. -/
theorem redispatch_delivered (d : SpellCheckerCorePrivate) (watcher : FinishedWatcher)
    (fileName : String) (wordsToSpellCheck : WordList)
    (hs : d.shuttingDown = false) (hc : watcher.isCanceled = false)
    (hw : tableFind watcher.watcher d.futureWatchers = some fileName)
    (hp : tableFind fileName d.filesWaitingForProcess = some wordsToSpellCheck) :
    deliverQueuedCall (futureFinished d (some watcher)) d.queuedCalls.length =
      { futureFinished d (some watcher) with
        queuedCalls := d.queuedCalls
        futureWatchers :=
          (newWatcher (futureFinished d (some watcher)), fileName) ::
            tableErase watcher.watcher d.futureWatchers
        filesInProcess := d.filesInProcess.filter (fun f => f != fileName) ++ [fileName]
        startedJobs := d.startedJobs ++
          [{ watcher := newWatcher (futureFinished d (some watcher))
             fileName := fileName
             words := wordsToSpellCheck
             previousMistakes := watcher.result
             priority := if fileName = d.currentFilePath then Priority.HighPriority
                         else Priority.LowPriority }] } := by
  have hff := futureFinished_pending d watcher fileName wordsToSpellCheck hs hc hw hp
  obtain ⟨f1, f2, f3, f4, f5, f6, f7, f8⟩ :=
    addMisspelledWords_frame (redispatchPosted d watcher.watcher fileName wordsToSpellCheck)
      fileName watcher.result
  rw [← hff] at f1 f2 f3 f4 f5 f6 f7 f8
  rw [deliverQueuedCall_posted (futureFinished d (some watcher)) d.queuedCalls fileName
    wordsToSpellCheck (by rw [f6]; rfl)]
  have hnot : fileName ∉ (futureFinished d (some watcher)).filesInProcess := by
    rw [f2]; exact not_mem_filter_bne _ _
  have hs2 : (futureFinished d (some watcher)).shuttingDown = false := by rw [f4]; exact hs
  rw [spellcheckWordsFromParser_idle
    { futureFinished d (some watcher) with queuedCalls := d.queuedCalls }
    fileName wordsToSpellCheck hs2 hnot]
  simp only [jobFor, newWatcher, f1, f2, f5, f7, f8, mistakesForFile_insertSpellingMistakes]
  rfl

/-- C10, as the code has it: when a tracked, not cancelled job of `fileName`
completes while the core is not shutting down and a request is pending for the
file, `futureFinished` erases the watcher and the file from the in-flight
table, erases the pending request, publishes the result and posts a queued
call of `spellcheckWordsFromParser` with the pending words; at the end of the
step no job has been started and the file is not in flight.  When the event
loop delivers the posted call as the next step, a job for the file is started
with the pending words as input and the published result as baseline, and its
new watcher is registered in the in-flight table. -/
theorem completion_posts_redispatch (d : SpellCheckerCorePrivate) (watcher : FinishedWatcher)
    (fileName : String) (wordsToSpellCheck : WordList)
    (hs : d.shuttingDown = false) (hc : watcher.isCanceled = false)
    (hw : tableFind watcher.watcher d.futureWatchers = some fileName)
    (hp : tableFind fileName d.filesWaitingForProcess = some wordsToSpellCheck) :
    (tableFind fileName (futureFinished d (some watcher)).filesWaitingForProcess = none
      ∧ (futureFinished d (some watcher)).queuedCalls =
          d.queuedCalls ++ [(fileName, wordsToSpellCheck)]
      ∧ (futureFinished d (some watcher)).startedJobs = d.startedJobs
      ∧ fileName ∉ (futureFinished d (some watcher)).filesInProcess
      ∧ tableFind watcher.watcher (futureFinished d (some watcher)).futureWatchers = none
      ∧ (futureFinished d (some watcher)).spellingMistakesModel.mistakesForFile fileName =
          watcher.result)
    ∧ ((deliverQueuedCall (futureFinished d (some watcher)) d.queuedCalls.length).startedJobs =
          d.startedJobs ++
            [{ watcher := newWatcher (futureFinished d (some watcher))
               fileName := fileName
               words := wordsToSpellCheck
               previousMistakes := watcher.result
               priority := if fileName = d.currentFilePath then Priority.HighPriority
                           else Priority.LowPriority }]
      ∧ fileName ∈
          (deliverQueuedCall (futureFinished d (some watcher)) d.queuedCalls.length).filesInProcess
      ∧ tableFind (newWatcher (futureFinished d (some watcher)))
          (deliverQueuedCall (futureFinished d (some watcher))
            d.queuedCalls.length).futureWatchers = some fileName
      ∧ (deliverQueuedCall (futureFinished d (some watcher)) d.queuedCalls.length).queuedCalls =
          d.queuedCalls
      ∧ tableFind fileName
          (deliverQueuedCall (futureFinished d (some watcher))
            d.queuedCalls.length).filesWaitingForProcess = none) := by
  have hcore := completion_posts_redispatch_core d watcher fileName wordsToSpellCheck hs hc hw hp
  refine ⟨hcore, ?_⟩
  rw [redispatch_delivered d watcher fileName wordsToSpellCheck hs hc hw hp]
  refine ⟨rfl, ?_, ?_, rfl, hcore.1⟩
  · exact List.mem_append_right _ (List.mem_singleton_self _)
  · exact tableFind_cons_eq _ _ _

/-- Witness of C10: the job of `b.cpp` (watcher 7) completes with an empty
result while the request with one Word is pending. -/
theorem completion_posts_redispatch_witness :
    (tableFind "b.cpp" (futureFinished busyCore (some ⟨7, false, []⟩)).filesWaitingForProcess
        = none
      ∧ (futureFinished busyCore (some ⟨7, false, []⟩)).queuedCalls =
          busyCore.queuedCalls ++ [("b.cpp", [word354])]
      ∧ (futureFinished busyCore (some ⟨7, false, []⟩)).startedJobs = busyCore.startedJobs
      ∧ "b.cpp" ∉ (futureFinished busyCore (some ⟨7, false, []⟩)).filesInProcess
      ∧ tableFind 7 (futureFinished busyCore (some ⟨7, false, []⟩)).futureWatchers = none
      ∧ (futureFinished busyCore (some ⟨7, false, []⟩)).spellingMistakesModel.mistakesForFile
          "b.cpp" = [])
    ∧ ((deliverQueuedCall (futureFinished busyCore (some ⟨7, false, []⟩))
          busyCore.queuedCalls.length).startedJobs =
          busyCore.startedJobs ++
            [{ watcher := newWatcher (futureFinished busyCore (some ⟨7, false, []⟩))
               fileName := "b.cpp"
               words := [word354]
               previousMistakes := []
               priority := if "b.cpp" = busyCore.currentFilePath then Priority.HighPriority
                           else Priority.LowPriority }]
      ∧ "b.cpp" ∈
          (deliverQueuedCall (futureFinished busyCore (some ⟨7, false, []⟩))
            busyCore.queuedCalls.length).filesInProcess
      ∧ tableFind (newWatcher (futureFinished busyCore (some ⟨7, false, []⟩)))
          (deliverQueuedCall (futureFinished busyCore (some ⟨7, false, []⟩))
            busyCore.queuedCalls.length).futureWatchers = some "b.cpp"
      ∧ (deliverQueuedCall (futureFinished busyCore (some ⟨7, false, []⟩))
          busyCore.queuedCalls.length).queuedCalls = busyCore.queuedCalls
      ∧ tableFind "b.cpp"
          (deliverQueuedCall (futureFinished busyCore (some ⟨7, false, []⟩))
            busyCore.queuedCalls.length).filesWaitingForProcess = none) :=
  completion_posts_redispatch busyCore ⟨7, false, []⟩ "b.cpp" [word354] rfl rfl
    (by decide) (by decide)

/-- C10 as stated fails: when `futureFinished` returns for the job of `b.cpp`
with a request pending, no job has been started and no watcher is registered
for the file; the call of `spellcheckWordsFromParser` is only posted. -/
theorem completion_registers_no_job_in_step :
    (futureFinished busyCore (some ⟨7, false, []⟩)).startedJobs = []
    ∧ (futureFinished busyCore (some ⟨7, false, []⟩)).futureWatchers = []
    ∧ (futureFinished busyCore (some ⟨7, false, []⟩)).filesInProcess = []
    ∧ (futureFinished busyCore (some ⟨7, false, []⟩)).filesWaitingForProcess = []
    ∧ (futureFinished busyCore (some ⟨7, false, []⟩)).queuedCalls =
        [("b.cpp", [word354])] := by
  decide

/-! ## Scheduler: coalescing -/

/-- C4, evaluated: with a job in flight and a request pending for `b.cpp`,
`cancelFutures` empties the watcher map, and `filesInProcess` still holds
`b.cpp` and `filesWaitingForProcess` still holds its request. -/
theorem cancelFutures_keeps_files_and_pending :
    inFlightCore.futureWatchers = [(1, "b.cpp")]
    ∧ (cancelFutures inFlightCore).futureWatchers = []
    ∧ (cancelFutures inFlightCore).filesInProcess = ["b.cpp"]
    ∧ (cancelFutures inFlightCore).filesWaitingForProcess = [("b.cpp", [])] := by
  decide

theorem reachable_inFlightCore : Reachable inFlightCore :=
  Reachable.step _ _
    (Reachable.step _ _ (Reachable.start SpellCheckerCorePrivate.initial rfl rfl)
      (Step.submit _ "b.cpp" [word354]))
    (Step.submit _ "b.cpp" [])

/-- C5, evaluated: after a submit for `b.cpp` and `cancelFutures`, a state
reached by submit and cancellation only, `b.cpp` is in `filesInProcess` and no
watcher is registered for it. -/
theorem cancelled_file_in_process_without_watcher :
    Reachable (cancelFutures inFlightCore)
    ∧ "b.cpp" ∈ (cancelFutures inFlightCore).filesInProcess
    ∧ watchersFor (cancelFutures inFlightCore) "b.cpp" = 0 :=
  ⟨Reachable.step _ _ reachable_inFlightCore (Step.cancel _), by decide, by decide⟩

/-! ## Scheduler: single flight -/

theorem count_values_tableErase_le (k : Nat) (m : List (Nat × String)) (fileName : String) :
    ((tableErase k m).map Prod.snd).count fileName ≤ (m.map Prod.snd).count fileName :=
  List.Sublist.count_le (List.Sublist.map Prod.snd (List.filter_sublist m)) fileName

theorem count_values_tableErase_lt {k : Nat} {m : List (Nat × String)} {fileName : String}
    (h : tableFind k m = some fileName) :
    ((tableErase k m).map Prod.snd).count fileName < (m.map Prod.snd).count fileName := by
  induction m with
  | nil => simp [tableFind] at h
  | cons e rest ih =>
    obtain ⟨a, b⟩ := e
    by_cases hk : a = k
    · subst hk
      rw [tableFind_cons_eq] at h
      cases h
      rw [tableErase_cons_eq]
      have := count_values_tableErase_le a rest fileName
      simp only [List.map_cons, List.count_cons_self]
      omega
    · rw [tableFind_cons_ne hk] at h
      rw [tableErase_cons_ne hk]
      have := ih h
      simp only [List.map_cons, List.count_cons]
      omega

theorem singleFlight_of_tables {d d' : SpellCheckerCorePrivate}
    (hw : d'.futureWatchers = d.futureWatchers) (hf : d'.filesInProcess = d.filesInProcess)
    (h : SingleFlight d) : SingleFlight d' := by
  intro fileName
  unfold watchersFor
  rw [hw, hf]
  exact h fileName

theorem singleFlight_submit (d : SpellCheckerCorePrivate) (fileName : String) (words : WordList)
    (h : SingleFlight d) : SingleFlight (spellcheckWordsFromParser d fileName words) := by
  by_cases hs : d.shuttingDown = true
  · have e : spellcheckWordsFromParser d fileName words = d := by
      simp [spellcheckWordsFromParser, hs]
    rw [e]; exact h
  · have hs' : d.shuttingDown = false := by simpa using hs
    by_cases hf : fileName ∈ d.filesInProcess
    · rw [spellcheckWordsFromParser_busy d fileName words hs' hf]
      exact singleFlight_of_tables rfl rfl h
    · rw [spellcheckWordsFromParser_idle d fileName words hs' hf]
      intro g
      have hg := h g
      have h0 : d.filesInProcess.count fileName = 0 := List.count_eq_zero_of_not_mem hf
      unfold watchersFor at hg ⊢
      simp only [List.map_cons, List.count_cons, List.count_append, List.count_nil]
      by_cases hgf : fileName = g
      · subst hgf
        simp only [beq_self_eq_true, if_true]
        omega
      · have hne : (fileName == g) = false := by simpa using hgf
        simp only [hne]
        simpa using hg

theorem singleFlight_addMisspelledWords (d : SpellCheckerCorePrivate) (fileName : String)
    (words : WordList) (h : SingleFlight d) :
    SingleFlight (addMisspelledWords d fileName words) :=
  singleFlight_of_tables (addMisspelledWords_frame d fileName words).1
    (addMisspelledWords_frame d fileName words).2.1 h

theorem singleFlight_erase (d d' : SpellCheckerCorePrivate) (watcher : Nat) (fileName : String)
    (hfound : tableFind watcher d.futureWatchers = some fileName)
    (hw : d'.futureWatchers = tableErase watcher d.futureWatchers)
    (hf : d'.filesInProcess = d.filesInProcess.filter (fun f => f != fileName))
    (h : SingleFlight d) : SingleFlight d' := by
  intro g
  have hg := h g
  unfold watchersFor at hg ⊢
  rw [hw, hf]
  by_cases hgf : g = fileName
  · subst hgf
    have hlt := count_values_tableErase_lt hfound
    have h0 : (d.filesInProcess.filter (fun f => f != g)).count g = 0 :=
      List.count_eq_zero_of_not_mem (not_mem_filter_bne _ _)
    omega
  · have hle := count_values_tableErase_le watcher d.futureWatchers g
    have hc : (d.filesInProcess.filter (fun f => f != fileName)).count g =
        d.filesInProcess.count g := by
      apply List.count_filter
      simpa using hgf
    omega

theorem singleFlight_finished (d : SpellCheckerCorePrivate) (sender : Option FinishedWatcher)
    (h : SingleFlight d) : SingleFlight (futureFinished d sender) := by
  unfold futureFinished
  split
  · exact h
  · rename_i watcher
    split
    · exact h
    · split
      · exact h
      · dsimp only
        split
        · exact h
        · rename_i fileName hfound
          apply singleFlight_addMisspelledWords
          split
          · exact singleFlight_erase d _ watcher.watcher fileName hfound rfl rfl h
          · exact singleFlight_erase d _ watcher.watcher fileName hfound rfl rfl h

theorem singleFlight_deliver (d : SpellCheckerCorePrivate) (i : Nat) (h : SingleFlight d) :
    SingleFlight (deliverQueuedCall d i) := by
  unfold deliverQueuedCall
  split
  · exact h
  · exact singleFlight_submit _ _ _ (singleFlight_of_tables rfl rfl h)

theorem singleFlight_cancel (d : SpellCheckerCorePrivate) (h : SingleFlight d) :
    SingleFlight (cancelFutures d) := by
  intro g
  exact ⟨by simp [watchersFor, cancelFutures], (h g).2⟩

theorem singleFlight_step {d d' : SpellCheckerCorePrivate} (hs : Step d d')
    (h : SingleFlight d) : SingleFlight d' := by
  cases hs with
  | submit fileName words => exact singleFlight_submit d fileName words h
  | finished sender => exact singleFlight_finished d sender h
  | deliver i => exact singleFlight_deliver d i h
  | cancel => exact singleFlight_cancel d h
  | other _ hw hf => exact singleFlight_of_tables hw hf h

theorem singleFlight_reachable {d : SpellCheckerCorePrivate} (hd : Reachable d) :
    SingleFlight d := by
  induction hd with
  | start d0 hw hf =>
    intro g
    simp [watchersFor, hw, hf]
  | step d0 d1 _ hs ih => exact singleFlight_step hs ih

/-- C6: in every state reached from an empty in-flight table by submits, job
completions, deliveries of posted calls (and also cancellations and steps of
other slots), the watcher map holds at most one watcher for every file and
`filesInProcess` holds every file at most once. -/
theorem at_most_one_job_per_file (d : SpellCheckerCorePrivate) (hd : Reachable d)
    (fileName : String) :
    watchersFor d fileName ≤ 1 ∧ d.filesInProcess.count fileName ≤ 1 := by
  have h := singleFlight_reachable hd fileName
  exact ⟨le_trans h.1 h.2, h.2⟩

/-- Witness of C6: the state after two submits for `b.cpp`. -/
theorem at_most_one_job_per_file_witness :
    watchersFor inFlightCore "b.cpp" ≤ 1 ∧ inFlightCore.filesInProcess.count "b.cpp" ≤ 1 :=
  at_most_one_job_per_file inFlightCore
    (Reachable.step _ _
      (Reachable.step _ _ (Reachable.start SpellCheckerCorePrivate.initial rfl rfl)
        (Step.submit _ "b.cpp" [word354]))
      (Step.submit _ "b.cpp" []))
    "b.cpp"

/-! ## Active project: file list delta -/

theorem fileListChanged_active (d : SpellCheckerCorePrivate) (project : Project)
    (hp : d.startupProject = some project)
    (hi : project.displayName ∉ d.projectsToIgnore) :
    fileListChanged d =
      { d with
        filesInStartupProject := project.files.toFinset
        spellingMistakesModel :=
          d.spellingMistakesModel.projectFilesChanged
            (project.files.toFinset \ d.filesInStartupProject)
            (d.filesInStartupProject \ project.files.toFinset)
        emitted := d.emitted ++
          [Signal.projectFilesChanged (project.files.toFinset \ d.filesInStartupProject)
            (d.filesInStartupProject \ project.files.toFinset)] } := by
  have e1 : (project.files.toFinset.filter (fun file => ¬ file ∈ d.filesInStartupProject))
      = project.files.toFinset \ d.filesInStartupProject := by
    ext x; simp [Finset.mem_sdiff]
  have e2 : (d.filesInStartupProject.filter (fun file => ¬ file ∈ project.files.toFinset))
      = d.filesInStartupProject \ project.files.toFinset := by
    ext x; simp [Finset.mem_sdiff]
  unfold fileListChanged
  rw [hp]
  simp only [hi, if_false]
  rw [e1, e2]

/-- C7: when a startup project is set and not ignored, `fileListChanged`
replaces `filesInStartupProject` by the new file set and emits exactly one
signal `projectFilesChanged( added, removed )` with added = new minus old and
removed = old minus new; no other signal is emitted.  For old files a, b, c
and new files b, c, d the signal carries added = d and removed = a. -/
theorem fileListChanged_emits_delta (d : SpellCheckerCorePrivate) (project : Project)
    (hp : d.startupProject = some project)
    (hi : project.displayName ∉ d.projectsToIgnore) :
    (fileListChanged d).filesInStartupProject = project.files.toFinset
    ∧ (fileListChanged d).emitted =
        d.emitted ++
          [Signal.projectFilesChanged (project.files.toFinset \ d.filesInStartupProject)
            (d.filesInStartupProject \ project.files.toFinset)]
    ∧ (fileListChanged projectCore).emitted = [Signal.projectFilesChanged {"d"} {"a"}]
    ∧ (fileListChanged projectCore).filesInStartupProject = {"b", "c", "d"} := by
  rw [fileListChanged_active d project hp hi]
  refine ⟨rfl, rfl, ?_, ?_⟩
  · rw [fileListChanged_active projectCore ⟨"demo", ["b", "c", "d"]⟩ rfl (by decide)]
    decide
  · rw [fileListChanged_active projectCore ⟨"demo", ["b", "c", "d"]⟩ rfl (by decide)]
    decide

/-- Witness of C7: the project `demo` with old files a, b, c and new files
b, c, d. -/
theorem fileListChanged_emits_delta_witness :
    (fileListChanged projectCore).filesInStartupProject =
        (["b", "c", "d"] : List String).toFinset
    ∧ (fileListChanged projectCore).emitted =
        projectCore.emitted ++
          [Signal.projectFilesChanged
            ((["b", "c", "d"] : List String).toFinset \ projectCore.filesInStartupProject)
            (projectCore.filesInStartupProject \ (["b", "c", "d"] : List String).toFinset)]
    ∧ (fileListChanged projectCore).emitted = [Signal.projectFilesChanged {"d"} {"a"}]
    ∧ (fileListChanged projectCore).filesInStartupProject = {"b", "c", "d"} :=
  fileListChanged_emits_delta projectCore ⟨"demo", ["b", "c", "d"]⟩ rfl (by decide)

/-! ## Scheduler: the last submit and a late re-dispatch -/

/-- C3, evaluated: in `lateRedispatchRun` the jobs run on the words of the
first, the third and then the second submit; when everything has settled (no
job in flight, nothing pending, nothing posted) the store holds the result of
the second submit, `adn`, not that of the last one, `recieve`. -/
theorem late_redispatch_publishes_older_words :
    lateRedispatchRun.startedJobs.map (fun job => (job.watcher, job.fileName, job.words)) =
        [(1, "a.cpp", [wordTeh]), (2, "a.cpp", [wordRecieve]), (3, "a.cpp", [wordAdn])]
    ∧ lateRedispatchRun.futureWatchers = []
    ∧ lateRedispatchRun.filesInProcess = []
    ∧ lateRedispatchRun.filesWaitingForProcess = []
    ∧ lateRedispatchRun.queuedCalls = []
    ∧ lateRedispatchRun.spellingMistakesModel.mistakesForFile "a.cpp" = [wordAdn]
    ∧ lateRedispatchRun.spellingMistakesModel.mistakesForFile "a.cpp" ≠ [wordRecieve] := by
  decide

/-! ## Scheduler: shutdown and empty input -/

theorem spellcheckWordsFromParser_shuttingDown (d : SpellCheckerCorePrivate) (fileName : String)
    (words : WordList) (hs : d.shuttingDown = true) :
    spellcheckWordsFromParser d fileName words = d := by
  simp [spellcheckWordsFromParser, hs]

theorem futureFinished_shuttingDown (d : SpellCheckerCorePrivate)
    (sender : Option FinishedWatcher) (hs : d.shuttingDown = true) :
    futureFinished d sender = d := by
  unfold futureFinished
  cases sender with
  | none => rfl
  | some watcher => simp [hs]

/-- C11: once `shuttingDown` is set, `spellcheckWordsFromParser` and
`futureFinished` return the state they were given, for every file, every word
list and every sender: the watcher map, `filesInProcess`, the pending table
and the store are unchanged, no job is started, no call is posted and no
signal is emitted. -/
theorem shutdown_makes_submit_and_completion_inert (d : SpellCheckerCorePrivate)
    (fileName : String) (words : WordList) (sender : Option FinishedWatcher)
    (hs : d.shuttingDown = true) :
    spellcheckWordsFromParser d fileName words = d ∧ futureFinished d sender = d :=
  ⟨spellcheckWordsFromParser_shuttingDown d fileName words hs,
    futureFinished_shuttingDown d sender hs⟩

/-- Witness of C11: after `aboutToQuit`, a submit for `a.cpp` and the
completion of any watcher change nothing. -/
theorem shutdown_makes_submit_and_completion_inert_witness :
    spellcheckWordsFromParser (aboutToQuit inFlightCore) "a.cpp" [word354] =
        aboutToQuit inFlightCore
    ∧ futureFinished (aboutToQuit inFlightCore) (some ⟨1, false, [word354]⟩) =
        aboutToQuit inFlightCore :=
  shutdown_makes_submit_and_completion_inert (aboutToQuit inFlightCore) "a.cpp" [word354]
    (some ⟨1, false, [word354]⟩) rfl

theorem addMisspelledWords_other_file (d : SpellCheckerCorePrivate) (fileName : String)
    (words : WordList) (h : d.currentFilePath ≠ fileName) :
    (addMisspelledWords d fileName words).emitted = d.emitted := by
  unfold addMisspelledWords
  simp [h]

theorem addMisspelledWords_text_editor (d : SpellCheckerCorePrivate) (fileName : String)
    (words : WordList) (editor : Editor) (blockLengths : List Int)
    (hed : d.currentEditor = some editor) (hdoc : editor.blockLengths = some blockLengths)
    (h : d.currentFilePath = fileName) :
    addMisspelledWords d fileName words =
      { d with
        spellingMistakesModel :=
          d.spellingMistakesModel.insertSpellingMistakes fileName words
            (decide (fileName ∈ d.filesInStartupProject))
        mistakesModel := words
        extraSelections := words.filter (wordFitsBlock blockLengths)
        emitted := d.emitted ++
          [Signal.wordUnderCursorMistake
            (isWordUnderCursorMistake
              { d with
                spellingMistakesModel :=
                  d.spellingMistakesModel.insertSpellingMistakes fileName words
                    (decide (fileName ∈ d.filesInStartupProject)) }).isSome
            (isWordUnderCursorMistake
              { d with
                spellingMistakesModel :=
                  d.spellingMistakesModel.insertSpellingMistakes fileName words
                    (decide (fileName ∈ d.filesInStartupProject)) })] } := by
  unfold addMisspelledWords
  simp [h, hed, hdoc, isWordUnderCursorMistake]

theorem isWordUnderCursorMistake_congr (d d' : SpellCheckerCorePrivate)
    (he : d'.currentEditor = d.currentEditor)
    (hm : d'.spellingMistakesModel = d.spellingMistakesModel) :
    isWordUnderCursorMistake d' = isWordUnderCursorMistake d := by
  unfold isWordUnderCursorMistake
  rw [he, hm]

theorem addMisspelledWords_no_editor (d : SpellCheckerCorePrivate) (fileName : String)
    (words : WordList) (hed : d.currentEditor = none) :
    (addMisspelledWords d fileName words).emitted = d.emitted := by
  unfold addMisspelledWords
  dsimp only
  split
  · rfl
  · simp only [hed]

theorem addMisspelledWords_no_document (d : SpellCheckerCorePrivate) (fileName : String)
    (words : WordList) (editor : Editor) (hed : d.currentEditor = some editor)
    (hdoc : editor.blockLengths = none) :
    (addMisspelledWords d fileName words).emitted = d.emitted := by
  unfold addMisspelledWords
  dsimp only
  split
  · rfl
  · simp only [hed, hdoc]

theorem addMisspelledWords_emits_lookup (d : SpellCheckerCorePrivate) (fileName : String)
    (words : WordList) (editor : Editor) (blockLengths : List Int)
    (hed : d.currentEditor = some editor) (hdoc : editor.blockLengths = some blockLengths)
    (h : d.currentFilePath = fileName) :
    (addMisspelledWords d fileName words).emitted =
      d.emitted ++
        [Signal.wordUnderCursorMistake
          (isWordUnderCursorMistake (addMisspelledWords d fileName words)).isSome
          (isWordUnderCursorMistake (addMisspelledWords d fileName words))] := by
  have hlook : isWordUnderCursorMistake (addMisspelledWords d fileName words) =
      isWordUnderCursorMistake
        { d with
          spellingMistakesModel :=
            d.spellingMistakesModel.insertSpellingMistakes fileName words
              (decide (fileName ∈ d.filesInStartupProject)) } := by
    apply isWordUnderCursorMistake_congr
    · rw [addMisspelledWords_text_editor d fileName words editor blockLengths hed hdoc h]
    · rw [addMisspelledWords_text_editor d fileName words editor blockLengths hed hdoc h]
  rw [hlook]
  rw [addMisspelledWords_text_editor d fileName words editor blockLengths hed hdoc h]

/-- C13, as the code has it, for every state, file and word list.  When the
file is the current file and the current editor is a text editor with a
document, the publish emits exactly one `wordUnderCursorMistake` signal, which
carries the result of the cursor lookup in the state after the publish (the
store holds the published words): the flag, and the matched Word when there is
one.  The publish emits nothing in every other case: when the file is not the
current file, when there is no current editor, and when the current editor is
not a text editor with a document.  In all cases the store holds the published
words for the file afterwards. -/
theorem publish_emits_cursor_state (d : SpellCheckerCorePrivate) (fileName : String)
    (words : WordList) :
    (∀ (editor : Editor) (blockLengths : List Int),
        d.currentEditor = some editor → editor.blockLengths = some blockLengths →
        d.currentFilePath = fileName →
        (addMisspelledWords d fileName words).emitted =
          d.emitted ++
            [Signal.wordUnderCursorMistake
              (isWordUnderCursorMistake (addMisspelledWords d fileName words)).isSome
              (isWordUnderCursorMistake (addMisspelledWords d fileName words))])
    ∧ (d.currentFilePath ≠ fileName →
        (addMisspelledWords d fileName words).emitted = d.emitted)
    ∧ (d.currentEditor = none →
        (addMisspelledWords d fileName words).emitted = d.emitted)
    ∧ (∀ editor : Editor, d.currentEditor = some editor → editor.blockLengths = none →
        (addMisspelledWords d fileName words).emitted = d.emitted)
    ∧ (addMisspelledWords d fileName words).spellingMistakesModel.mistakesForFile fileName =
        words := by
  refine ⟨fun editor blockLengths hed hdoc h =>
      addMisspelledWords_emits_lookup d fileName words editor blockLengths hed hdoc h,
    addMisspelledWords_other_file d fileName words,
    addMisspelledWords_no_editor d fileName words,
    fun editor hed hdoc => addMisspelledWords_no_document d fileName words editor hed hdoc, ?_⟩
  rw [(addMisspelledWords_frame d fileName words).2.2.2.2.2.2.2]
  exact mistakesForFile_insertSpellingMistakes _ _ _ _

/-- Witness of C13: a publish of the Word at line 3, column 5 for `a.cpp`, the
current file with the cursor at line 3, column 5: with a text editor one
signal with the Word is emitted, without a text document none, and for another
file none. -/
theorem publish_emits_cursor_state_witness :
    (addMisspelledWords textEditorCore "a.cpp" [word354]).emitted =
        textEditorCore.emitted ++
          [Signal.wordUnderCursorMistake
            (isWordUnderCursorMistake (addMisspelledWords textEditorCore "a.cpp" [word354])).isSome
            (isWordUnderCursorMistake (addMisspelledWords textEditorCore "a.cpp" [word354]))]
    ∧ (addMisspelledWords plainEditorCore "a.cpp" [word354]).emitted = plainEditorCore.emitted
    ∧ (addMisspelledWords textEditorCore "b.cpp" [word354]).emitted = textEditorCore.emitted :=
  ⟨(publish_emits_cursor_state textEditorCore "a.cpp" [word354]).1
      ⟨"a.cpp", 3, 5, some [20, 20, 20]⟩ [20, 20, 20] rfl rfl rfl,
    (publish_emits_cursor_state plainEditorCore "a.cpp" [word354]).2.2.2.1
      ⟨"a.cpp", 3, 5, none⟩ rfl rfl,
    (publish_emits_cursor_state textEditorCore "b.cpp" [word354]).2.1 (by decide)⟩

/-- C13 as stated fails: a publish for the current file `a.cpp` emits no signal
when the current editor is not a text editor with a document, although the
store then holds a Word under the cursor; with a text editor the same publish
emits the signal once. -/
theorem publish_without_text_editor_emits_nothing :
    plainEditorCore.currentFilePath = "a.cpp"
    ∧ (addMisspelledWords plainEditorCore "a.cpp" [word354]).emitted = []
    ∧ isWordUnderCursorMistake (addMisspelledWords plainEditorCore "a.cpp" [word354]) =
        some word354
    ∧ (addMisspelledWords textEditorCore "a.cpp" [word354]).emitted =
        [Signal.wordUnderCursorMistake true (some word354)] := by
  decide

/-! ## Cursor lookup: the first match -/

theorem scanWordList_eq_find? (line column : Int) (wl : WordList) :
    scanWordList line column wl = wl.find? (cursorOnWord line column) := by
  induction wl with
  | nil => rfl
  | cons currentWord rest ih =>
    unfold scanWordList
    by_cases h : cursorOnWord line column currentWord = true
    · simp [h]
    · simp [h, ih]

theorem scanWordList_none_iff (line column : Int) (wl : WordList) :
    scanWordList line column wl = none ↔ ∀ w ∈ wl, cursorOnWord line column w = false := by
  rw [scanWordList_eq_find?]
  simp [List.find?_eq_none]

theorem scanWordList_first {line column : Int} {wl : WordList} {w : Word}
    (h : scanWordList line column wl = some w) :
    ∃ before after : WordList, wl = before ++ w :: after
      ∧ cursorOnWord line column w = true
      ∧ ∀ x ∈ before, cursorOnWord line column x = false := by
  induction wl with
  | nil => simp [scanWordList] at h
  | cons currentWord rest ih =>
    unfold scanWordList at h
    split at h
    · rename_i hm
      cases h
      exact ⟨[], rest, rfl, hm, fun x hx => by cases hx⟩
    · rename_i hm
      obtain ⟨before, after, hl, hw, hb⟩ := ih h
      refine ⟨currentWord :: before, after, by rw [hl]; rfl, hw, ?_⟩
      intro x hx
      rcases List.mem_cons.mp hx with hx | hx
      · subst hx
        simpa using hm
      · exact hb x hx

theorem isWordUnderCursorMistake_eq_scan (d : SpellCheckerCorePrivate) (editor : Editor)
    (hed : d.currentEditor = some editor) :
    isWordUnderCursorMistake d =
      scanWordList editor.currentLine editor.currentColumn
        (d.spellingMistakesModel.mistakesForFile editor.filePath) := by
  unfold isWordUnderCursorMistake
  rw [hed]
  dsimp only
  split
  · rename_i hempty
    rw [List.isEmpty_iff] at hempty
    rw [hempty]
    rfl
  · rfl

/-- C16: with a current editor, the cursor lookup returns the first Word, in
the iteration order of the current file's mistakes, that passes the test for
the cursor position, also when several Words pass it: every Word before the
returned one fails the test.  It reports no mistake exactly when no Word of the
collection passes the test.  For two Words that both cover line 3, column 6 the
lookup returns the one that comes first, in either order. -/
theorem cursor_lookup_returns_first_match (d : SpellCheckerCorePrivate) (editor : Editor)
    (hed : d.currentEditor = some editor) :
    isWordUnderCursorMistake d =
        (d.spellingMistakesModel.mistakesForFile editor.filePath).find?
          (cursorOnWord editor.currentLine editor.currentColumn)
    ∧ (∀ w : Word, isWordUnderCursorMistake d = some w →
        ∃ before after : WordList,
          d.spellingMistakesModel.mistakesForFile editor.filePath = before ++ w :: after
          ∧ cursorOnWord editor.currentLine editor.currentColumn w = true
          ∧ ∀ x ∈ before, cursorOnWord editor.currentLine editor.currentColumn x = false)
    ∧ (isWordUnderCursorMistake d = none ↔
        ∀ w ∈ d.spellingMistakesModel.mistakesForFile editor.filePath,
          cursorOnWord editor.currentLine editor.currentColumn w = false)
    ∧ isWordUnderCursorMistake (cursorCore [wordOuter, wordInner] 3 6) = some wordOuter
    ∧ isWordUnderCursorMistake (cursorCore [wordInner, wordOuter] 3 6) = some wordInner
    ∧ isWordUnderCursorMistake (cursorCore [wordOuter, wordInner] 4 6) = none := by
  rw [isWordUnderCursorMistake_eq_scan d editor hed]
  refine ⟨scanWordList_eq_find? _ _ _, fun w h => scanWordList_first h,
    scanWordList_none_iff _ _ _, by decide, by decide, by decide⟩

/-- Witness of C16: the two overlapping Words with the cursor at line 3,
column 6. -/
theorem cursor_lookup_returns_first_match_witness :
    isWordUnderCursorMistake (cursorCore [wordOuter, wordInner] 3 6) =
        ((cursorCore [wordOuter, wordInner] 3 6).spellingMistakesModel.mistakesForFile
          "a.cpp").find? (cursorOnWord 3 6)
    ∧ (∀ w : Word, isWordUnderCursorMistake (cursorCore [wordOuter, wordInner] 3 6) = some w →
        ∃ before after : WordList,
          (cursorCore [wordOuter, wordInner] 3 6).spellingMistakesModel.mistakesForFile "a.cpp" =
            before ++ w :: after
          ∧ cursorOnWord 3 6 w = true
          ∧ ∀ x ∈ before, cursorOnWord 3 6 x = false)
    ∧ (isWordUnderCursorMistake (cursorCore [wordOuter, wordInner] 3 6) = none ↔
        ∀ w ∈ (cursorCore [wordOuter, wordInner] 3 6).spellingMistakesModel.mistakesForFile
            "a.cpp",
          cursorOnWord 3 6 w = false)
    ∧ isWordUnderCursorMistake (cursorCore [wordOuter, wordInner] 3 6) = some wordOuter
    ∧ isWordUnderCursorMistake (cursorCore [wordInner, wordOuter] 3 6) = some wordInner
    ∧ isWordUnderCursorMistake (cursorCore [wordOuter, wordInner] 4 6) = none :=
  cursor_lookup_returns_first_match (cursorCore [wordOuter, wordInner] 3 6)
    ⟨"a.cpp", 3, 6, none⟩ rfl

/-! ## Occurrences of a word -/

theorem appendOccurrences_eq (word : Word) (wl words : WordList) :
    appendOccurrences word wl words =
      words ++ wl.filter (fun currentWord => decide (currentWord.text = word.text)) := by
  induction wl generalizing words with
  | nil => simp [appendOccurrences]
  | cons currentWord rest ih =>
    unfold appendOccurrences
    rw [ih]
    by_cases h : currentWord.text = word.text
    · simp [h]
    · simp [h]

theorem getAllOccurrencesOfWord_eq (d : SpellCheckerCorePrivate) (editor : Editor)
    (word : Word) (words : WordList) (hed : d.currentEditor = some editor) :
    (getAllOccurrencesOfWord d word words).2 =
      words ++ (d.spellingMistakesModel.mistakesForFile editor.filePath).filter
        (fun currentWord => decide (currentWord.text = word.text)) := by
  unfold getAllOccurrencesOfWord
  rw [hed]
  dsimp only
  split
  · rename_i hempty
    rw [List.isEmpty_iff] at hempty
    rw [hempty]
    simp
  · exact appendOccurrences_eq _ _ _

/-- C15: with a current editor, `getAllOccurrencesOfWord` called with an empty
out list leaves in it exactly the Words of the current file's mistakes whose
text equals the text of the given word, in iteration order: a Word is in the
result if and only if it is in the mistakes and has that text, and every such
Word is there as often as it is in the mistakes.  The comparison is case
sensitive: `Teh` is not an occurrence of `teh`. -/
theorem occurrences_are_the_equal_texts (d : SpellCheckerCorePrivate) (editor : Editor)
    (word : Word) (hed : d.currentEditor = some editor) :
    (getAllOccurrencesOfWord d word []).2 =
        (d.spellingMistakesModel.mistakesForFile editor.filePath).filter
          (fun currentWord => decide (currentWord.text = word.text))
    ∧ (∀ w : Word, w ∈ (getAllOccurrencesOfWord d word []).2 ↔
        w ∈ d.spellingMistakesModel.mistakesForFile editor.filePath ∧ w.text = word.text)
    ∧ (∀ w : Word, w.text = word.text →
        (getAllOccurrencesOfWord d word []).2.count w =
          (d.spellingMistakesModel.mistakesForFile editor.filePath).count w)
    ∧ (getAllOccurrencesOfWord occurrencesCore wordTeh []).2 = [wordTeh, wordTehAgain] := by
  have h := getAllOccurrencesOfWord_eq d editor word [] hed
  rw [List.nil_append] at h
  refine ⟨h, ?_, ?_, by decide⟩
  · intro w
    rw [h]
    simp [List.mem_filter]
  · intro w hw
    rw [h]
    apply List.count_filter
    simpa using hw

/-- Witness of C15: the occurrences of `teh` among four mistakes of `a.cpp`. -/
theorem occurrences_are_the_equal_texts_witness :
    (getAllOccurrencesOfWord occurrencesCore wordTeh []).2 =
        (occurrencesCore.spellingMistakesModel.mistakesForFile "a.cpp").filter
          (fun currentWord => decide (currentWord.text = wordTeh.text))
    ∧ (∀ w : Word,
        w ∈ (getAllOccurrencesOfWord occurrencesCore wordTeh []).2 ↔
        w ∈ occurrencesCore.spellingMistakesModel.mistakesForFile "a.cpp"
          ∧ w.text = wordTeh.text)
    ∧ (∀ w : Word, w.text = wordTeh.text →
        (getAllOccurrencesOfWord occurrencesCore wordTeh []).2.count w =
          (occurrencesCore.spellingMistakesModel.mistakesForFile "a.cpp").count w)
    ∧ (getAllOccurrencesOfWord occurrencesCore wordTeh []).2 = [wordTeh, wordTehAgain] :=
  occurrences_are_the_equal_texts occurrencesCore ⟨"a.cpp", 1, 1, none⟩ wordTeh rfl

/-! ## Ignoring or adding the word under the cursor -/

theorem find?_filter_of_imp {α : Type} (p q : α → Bool) (l : List α)
    (h : ∀ x, p x = true → q x = true) : (l.filter q).find? p = l.find? p := by
  induction l with
  | nil => rfl
  | cons a rest ih =>
    by_cases hq : q a = true
    · rw [List.filter_cons_of_pos hq, List.find?_cons, List.find?_cons, ih]
    · have hp : p a = false := by
        cases hpa : p a with
        | false => rfl
        | true => exact absurd (h a hpa) hq
      rw [List.filter_cons_of_neg hq, List.find?_cons, hp, ih]

theorem find?_spec {α : Type} (p : α → Bool) (l : List α) (a : α)
    (h : l.find? p = some a) : a ∈ l ∧ p a = true := by
  induction l with
  | nil => cases h
  | cons b rest ih =>
    rw [List.find?_cons] at h
    cases hb : p b with
    | true =>
      rw [hb] at h
      cases h
      exact ⟨List.mem_cons_self _ _, hb⟩
    | false =>
      rw [hb] at h
      exact ⟨List.mem_cons_of_mem _ (ih h).1, (ih h).2⟩

theorem mistakesForFile_insert_ne (m : ProjectMistakesModel) (fileName other : String)
    (words : WordList) (flag : Bool) (h : other ≠ fileName) :
    (m.insertSpellingMistakes fileName words flag).mistakesForFile other =
      m.mistakesForFile other := by
  have h1 : (fileName == other) = false := by simpa using fun e => h e.symm
  unfold ProjectMistakesModel.mistakesForFile ProjectMistakesModel.insertSpellingMistakes
  rw [List.find?_cons]
  simp only [h1]
  rw [find?_filter_of_imp (fun e => e.file == other) (fun e => e.file != fileName) m]
  intro x hx
  have hxo : x.file = other := by simpa using hx
  simpa [hxo] using h

theorem mistakesForFile_removeAllOccurrences (m : ProjectMistakesModel) (text fileName : String) :
    (m.removeAllOccurrences text).mistakesForFile fileName =
      (m.mistakesForFile fileName).filter (fun w => w.text != text) := by
  unfold ProjectMistakesModel.mistakesForFile ProjectMistakesModel.removeAllOccurrences
  induction m with
  | nil => rfl
  | cons e rest ih =>
    by_cases he : e.file = fileName
    · simp [List.find?_cons, he]
    · simpa [List.find?_cons, he] using ih

theorem indexOfFile_ne_of_mem (m : ProjectMistakesModel) (fileName : String) (w : Word)
    (h : w ∈ m.mistakesForFile fileName) : m.indexOfFile fileName ≠ -1 := by
  have hany : m.any (fun e => e.file == fileName) = true := by
    unfold ProjectMistakesModel.mistakesForFile at h
    cases hfind : m.find? (fun e => e.file == fileName) with
    | none => rw [hfind] at h; cases h
    | some e =>
      rw [List.any_eq_true]
      exact ⟨e, find?_spec (fun e => e.file == fileName) m e hfind⟩
  unfold ProjectMistakesModel.indexOfFile
  rw [if_pos hany]
  omega

theorem removeWordUnderCursor_registered (d : SpellCheckerCorePrivate) (checker : ISpellChecker)
    (action : RemoveAction) (editor : Editor) (word : Word)
    (hed : d.currentEditor = some editor)
    (hfound : isWordUnderCursorMistake d = some word)
    (hok : askSpellChecker checker action word.text = true) :
    removeWordUnderCursor d (some checker) action =
      { addMisspelledWords
          { d with
            spellingMistakesModel := d.spellingMistakesModel.removeAllOccurrences word.text }
          editor.filePath
          ((d.spellingMistakesModel.removeAllOccurrences word.text).mistakesForFile
            editor.filePath) with
        emitted :=
          (addMisspelledWords
            { d with
              spellingMistakesModel := d.spellingMistakesModel.removeAllOccurrences word.text }
            editor.filePath
            ((d.spellingMistakesModel.removeAllOccurrences word.text).mistakesForFile
              editor.filePath)).emitted ++ [Signal.wordUnderCursorMistake false none] } := by
  have hidx := indexOfFile_ne_of_mem d.spellingMistakesModel editor.filePath word
    (isWordUnderCursorMistake_some hed hfound).1
  unfold removeWordUnderCursor
  rw [hed]
  simp only [hidx, if_false, hfound, hok, if_true]

theorem removeWordUnderCursor_refused (d : SpellCheckerCorePrivate) (checker : ISpellChecker)
    (action : RemoveAction) (editor : Editor) (word : Word)
    (hed : d.currentEditor = some editor)
    (hfound : isWordUnderCursorMistake d = some word)
    (hno : askSpellChecker checker action word.text = false) :
    removeWordUnderCursor d (some checker) action = d := by
  unfold removeWordUnderCursor
  rw [hed]
  simp only [hfound, hno]
  split <;> simp

theorem removeWordUnderCursor_eq (d : SpellCheckerCorePrivate) (checker : ISpellChecker)
    (action : RemoveAction) (editor : Editor) (word : Word)
    (hed : d.currentEditor = some editor)
    (hfound : isWordUnderCursorMistake d = some word) :
    removeWordUnderCursor d (some checker) action =
      if askSpellChecker checker action word.text = true then
        removeAndRepublish d editor.filePath word.text
      else d := by
  by_cases hok : askSpellChecker checker action word.text = true
  · rw [if_pos hok]
    exact removeWordUnderCursor_registered d checker action editor word hed hfound hok
  · rw [if_neg hok]
    exact removeWordUnderCursor_refused d checker action editor word hed hfound
      (by simpa using hok)

theorem removeAndRepublish_store (d : SpellCheckerCorePrivate) (currentFileName text : String) :
    (removeAndRepublish d currentFileName text).spellingMistakesModel =
      (d.spellingMistakesModel.removeAllOccurrences text).insertSpellingMistakes currentFileName
        ((d.spellingMistakesModel.mistakesForFile currentFileName).filter
          (fun w => w.text != text))
        (decide (currentFileName ∈ d.filesInStartupProject)) := by
  show (addMisspelledWords _ _ _).spellingMistakesModel = _
  rw [(addMisspelledWords_frame _ _ _).2.2.2.2.2.2.2, mistakesForFile_removeAllOccurrences]

theorem removeAndRepublish_mistakesForFile (d : SpellCheckerCorePrivate)
    (currentFileName text fileName : String) :
    (removeAndRepublish d currentFileName text).spellingMistakesModel.mistakesForFile fileName =
      (d.spellingMistakesModel.mistakesForFile fileName).filter (fun w => w.text != text) := by
  rw [removeAndRepublish_store]
  by_cases hf : fileName = currentFileName
  · subst hf
    rw [mistakesForFile_insertSpellingMistakes]
  · rw [mistakesForFile_insert_ne _ _ _ _ _ hf, mistakesForFile_removeAllOccurrences]

theorem removeAndRepublish_mistakesModel (d : SpellCheckerCorePrivate)
    (currentFileName text : String) (hcur : d.currentFilePath = currentFileName) :
    (removeAndRepublish d currentFileName text).mistakesModel =
      (d.spellingMistakesModel.mistakesForFile currentFileName).filter
        (fun w => w.text != text) := by
  show (addMisspelledWords _ _ _).mistakesModel = _
  rw [← mistakesForFile_removeAllOccurrences]
  unfold addMisspelledWords
  simp only [hcur, if_true, ne_eq, not_true_eq_false, if_false]
  split
  · rfl
  · split <;> rfl

theorem removeAndRepublish_frame (d : SpellCheckerCorePrivate) (currentFileName text : String) :
    (removeAndRepublish d currentFileName text).startedJobs = d.startedJobs
    ∧ (removeAndRepublish d currentFileName text).queuedCalls = d.queuedCalls
    ∧ (removeAndRepublish d currentFileName text).futureWatchers = d.futureWatchers
    ∧ (removeAndRepublish d currentFileName text).filesInProcess = d.filesInProcess
    ∧ (removeAndRepublish d currentFileName text).filesWaitingForProcess =
        d.filesWaitingForProcess := by
  obtain ⟨f1, f2, f3, _, f5, f6, _, _⟩ :=
    addMisspelledWords_frame
      { d with spellingMistakesModel := d.spellingMistakesModel.removeAllOccurrences text }
      currentFileName
      ((d.spellingMistakesModel.removeAllOccurrences text).mistakesForFile currentFileName)
  exact ⟨f5, f6, f1, f2, f3⟩

/-- C14, as the code has it, when the word under the cursor is a mistake.
`ignoreWordUnderCursor` asks the capability's `ignoreWord` and
`addWordUnderCursor` asks its `addWord`, with the text of the word.  When the
answer is true the command removes all occurrences of the text from the store,
publishes the current editor's file again with its new list from the store
(`addMisspelledWords`; no other file is published) and emits
`wordUnderCursorMistake( false )`; afterwards the store is the store after
`removeAllOccurrences` with the row of the current editor's file inserted
again, every file holds its former mistakes without the Words of that text,
the displayed list `mistakesModel` is the new list when the file is the
current file, no job is started or posted, and the watcher map,
`filesInProcess` and the pending table are unchanged.  When the answer is
false the state is unchanged: the store is not modified and nothing is
published. -/
theorem remove_word_republishes_current_file (d : SpellCheckerCorePrivate)
    (checker : ISpellChecker) (editor : Editor) (word : Word)
    (hed : d.currentEditor = some editor)
    (hfound : isWordUnderCursorMistake d = some word) :
    ignoreWordUnderCursor d (some checker) =
        (if checker.ignoreWord word.text = true then
          removeAndRepublish d editor.filePath word.text
        else d)
    ∧ addWordUnderCursor d (some checker) =
        (if checker.addWord word.text = true then
          removeAndRepublish d editor.filePath word.text
        else d)
    ∧ (removeAndRepublish d editor.filePath word.text).spellingMistakesModel =
        (d.spellingMistakesModel.removeAllOccurrences word.text).insertSpellingMistakes
          editor.filePath
          ((d.spellingMistakesModel.mistakesForFile editor.filePath).filter
            (fun w => w.text != word.text))
          (decide (editor.filePath ∈ d.filesInStartupProject))
    ∧ (∀ fileName : String,
        (removeAndRepublish d editor.filePath word.text).spellingMistakesModel.mistakesForFile
            fileName =
          (d.spellingMistakesModel.mistakesForFile fileName).filter
            (fun w => w.text != word.text))
    ∧ (d.currentFilePath = editor.filePath →
        (removeAndRepublish d editor.filePath word.text).mistakesModel =
          (d.spellingMistakesModel.mistakesForFile editor.filePath).filter
            (fun w => w.text != word.text))
    ∧ (removeAndRepublish d editor.filePath word.text).emitted =
        (addMisspelledWords
          { d with
            spellingMistakesModel := d.spellingMistakesModel.removeAllOccurrences word.text }
          editor.filePath
          ((d.spellingMistakesModel.removeAllOccurrences word.text).mistakesForFile
            editor.filePath)).emitted ++ [Signal.wordUnderCursorMistake false none]
    ∧ (removeAndRepublish d editor.filePath word.text).startedJobs = d.startedJobs
    ∧ (removeAndRepublish d editor.filePath word.text).queuedCalls = d.queuedCalls
    ∧ (removeAndRepublish d editor.filePath word.text).futureWatchers = d.futureWatchers
    ∧ (removeAndRepublish d editor.filePath word.text).filesInProcess = d.filesInProcess
    ∧ (removeAndRepublish d editor.filePath word.text).filesWaitingForProcess =
        d.filesWaitingForProcess := by
  obtain ⟨f1, f2, f3, f4, f5⟩ := removeAndRepublish_frame d editor.filePath word.text
  exact ⟨removeWordUnderCursor_eq d checker RemoveAction.Ignore editor word hed hfound,
    removeWordUnderCursor_eq d checker RemoveAction.Add editor word hed hfound,
    removeAndRepublish_store d editor.filePath word.text,
    removeAndRepublish_mistakesForFile d editor.filePath word.text,
    removeAndRepublish_mistakesModel d editor.filePath word.text,
    rfl, f1, f2, f3, f4, f5⟩

/-- Witness of C14: the cursor is on `teh` in `a.cpp`, `teh` is also a mistake
of `b.cpp`, and the capability registers the word when asked to ignore it and
refuses to add it. -/
theorem remove_word_republishes_current_file_witness :
    ignoreWordUnderCursor twoFilesCore (some ignoringChecker) =
        removeAndRepublish twoFilesCore "a.cpp" "teh"
    ∧ addWordUnderCursor twoFilesCore (some ignoringChecker) = twoFilesCore
    ∧ (removeAndRepublish twoFilesCore "a.cpp" "teh").spellingMistakesModel =
        [⟨"a.cpp", [wordAdn], false⟩, ⟨"b.cpp", [wordRecieve], false⟩]
    ∧ (removeAndRepublish twoFilesCore "a.cpp" "teh").mistakesModel = [wordAdn]
    ∧ (removeAndRepublish twoFilesCore "a.cpp" "teh").startedJobs = twoFilesCore.startedJobs
    ∧ (removeAndRepublish twoFilesCore "a.cpp" "teh").filesInProcess =
        twoFilesCore.filesInProcess :=
  ⟨(remove_word_republishes_current_file twoFilesCore ignoringChecker ⟨"a.cpp", 1, 2, none⟩
      wordTeh rfl (by decide)).1,
    (remove_word_republishes_current_file twoFilesCore ignoringChecker ⟨"a.cpp", 1, 2, none⟩
      wordTeh rfl (by decide)).2.1,
    by decide, by decide,
    (remove_word_republishes_current_file twoFilesCore ignoringChecker ⟨"a.cpp", 1, 2, none⟩
      wordTeh rfl (by decide)).2.2.2.2.2.2.1,
    (remove_word_republishes_current_file twoFilesCore ignoringChecker ⟨"a.cpp", 1, 2, none⟩
      wordTeh rfl (by decide)).2.2.2.2.2.2.2.2.2.1⟩

/-- C14 as stated fails: `teh` is a mistake of `a.cpp`, the file under the
cursor, and of `b.cpp`; both files belong to the startup project and both rows
of the store were inserted with the flag unset.  After `ignoreWordUnderCursor`
has succeeded, the row of `a.cpp` carries the flag that a publish records, and
the row of `b.cpp` has lost `teh` but still has the flag unset: `b.cpp` is
affected and was not published again; publishing it from the store would change
the store. -/
theorem remove_word_publishes_only_current_file :
    wordTehAgain ∈ twoProjectFilesCore.spellingMistakesModel.mistakesForFile "b.cpp"
    ∧ (ignoreWordUnderCursor twoProjectFilesCore (some acceptingChecker)).spellingMistakesModel
        = [⟨"a.cpp", [wordAdn], true⟩, ⟨"b.cpp", [wordRecieve], false⟩]
    ∧ (addMisspelledWords (ignoreWordUnderCursor twoProjectFilesCore (some acceptingChecker))
          "b.cpp" [wordRecieve]).spellingMistakesModel
        = [⟨"b.cpp", [wordRecieve], true⟩, ⟨"a.cpp", [wordAdn], true⟩]
    ∧ (addMisspelledWords (ignoreWordUnderCursor twoProjectFilesCore (some acceptingChecker))
          "b.cpp" [wordRecieve]).spellingMistakesModel
        ≠ (ignoreWordUnderCursor twoProjectFilesCore
            (some acceptingChecker)).spellingMistakesModel := by
  decide

/-- C14 on an example: ignoring `teh` removes it from `a.cpp` and from `b.cpp`;
a capability that refuses the word leaves the store as it was. -/
theorem remove_word_example :
    (ignoreWordUnderCursor twoFilesCore (some acceptingChecker)).spellingMistakesModel =
        [⟨"a.cpp", [wordAdn], false⟩, ⟨"b.cpp", [wordRecieve], false⟩]
    ∧ (ignoreWordUnderCursor twoFilesCore (some acceptingChecker)).mistakesModel = [wordAdn]
    ∧ (addWordUnderCursor twoFilesCore (some refusingChecker)).spellingMistakesModel =
        twoFilesCore.spellingMistakesModel := by
  decide

/-! ## Project switch while a job is in flight -/

theorem futureFinished_no_watchers (d : SpellCheckerCorePrivate)
    (sender : Option FinishedWatcher) (h : d.futureWatchers = []) :
    futureFinished d sender = d := by
  unfold futureFinished
  cases sender with
  | none => rfl
  | some watcher =>
    simp only [h, tableFind]
    split
    · rfl
    · split <;> rfl

/-- C17, evaluated: after a submit for `a.cpp`, a change of the startup project
and a second submit for `a.cpp`, the only job ever started is the one of the
first submit; the second submit is recorded as pending because `a.cpp` is still
in `filesInProcess`; no watcher is registered, so `futureFinished` changes
nothing for any sender and the pending request is never dispatched. -/
theorem submit_after_project_switch_only_pends :
    projectSwitchRun.shuttingDown = false
    ∧ projectSwitchRun.startedJobs =
        [{ watcher := 1, fileName := "a.cpp", words := [wordTeh], previousMistakes := [],
           priority := Priority.LowPriority }]
    ∧ projectSwitchRun.futureWatchers = []
    ∧ projectSwitchRun.filesInProcess = ["a.cpp"]
    ∧ projectSwitchRun.filesWaitingForProcess = [("a.cpp", [wordAdn])]
    ∧ projectSwitchRun.queuedCalls = []
    ∧ ∀ sender : Option FinishedWatcher,
        futureFinished projectSwitchRun sender = projectSwitchRun :=
  ⟨by decide, by decide, by decide, by decide, by decide, by decide,
    fun sender => futureFinished_no_watchers projectSwitchRun sender (by decide)⟩

/-! ## Replacing words in the editor -/

/-- C18, evaluated: in the line `teh teh` the two Words at columns 1 and 5 are
replaced by `that`.  The second Word is located with its original column after
the first replacement has shifted the line, so the result is `thatthath` and
not `that that`.  With the Words in the opposite order, or with a replacement
of the Words' length, the result is the expected text. -/
theorem replace_two_words_on_a_line_shifts :
    (replaceWordsInCurrentEditor (cursorCore [tehFirst, tehSecond] 1 1) (some tehTehWidget)
        [tehFirst, tehSecond] "that").1.map (fun w => String.mk w.text) = some "thatthath"
    ∧ (replaceWordsInCurrentEditor (cursorCore [tehFirst, tehSecond] 1 1) (some tehTehWidget)
        [tehFirst, tehSecond] "that").1.map (fun w => String.mk w.text) ≠ some "that that"
    ∧ (replaceWordsInCurrentEditor (cursorCore [tehFirst, tehSecond] 1 1) (some tehTehWidget)
        [tehSecond, tehFirst] "that").1.map (fun w => String.mk w.text) = some "that that"
    ∧ (replaceWordsInCurrentEditor (cursorCore [tehFirst, tehSecond] 1 1) (some tehTehWidget)
        [tehFirst, tehSecond] "the").1.map (fun w => String.mk w.text) = some "the the" := by
  decide

end SpellChecker
